import Mathlib

/-!
Verification of the Provider Registry and Beacon-Parsing Engine of the
puppeteer-plus-martech repository.

The development shallowly embeds the JavaScript source files
src/providers/ProviderRegistry.js (registry plus BaseProvider),
src/providers/platforms/*.js (vendor providers) and the Adobe Web SDK
provider file into Lean.  JavaScript platform builtins that the source
calls (URL, URLSearchParams, JSON.parse, JSON.stringify,
decodeURIComponent, the RegExp engine and its static capture state) are
modelled by executable Lean functions whose behaviour is documented at
each definition.  JavaScript exceptions are modelled with Except,
undefined-or-missing results with Option, and the global RegExp capture
state (RegExp dollar-one and friends) is threaded explicitly as a value
of type RegexSt.
-/

/-! ## Character helpers -/


/-- ASCII lowering of a character list. -/
def lowerL (l : List Char) : List Char := l.map Char.toLower

/-- ASCII lowering of a string, modelling how a case-insensitive regex
relates to its case-sensitive core on the ASCII patterns of this code. -/
def lowerS (s : String) : String := ⟨lowerL s.data⟩

/-! ## A small regular-expression language

The provider URL patterns in the source use only literals, alternation,
optional groups, one-or-more repetitions of a single character class,
and the end anchor.  The type Rx captures exactly these constructs and
mtch implements the standard backtracking semantics of the JavaScript
RegExp test method (existence of a match anywhere in the subject). -/

inductive Rx where
  | lit (cs : List Char)
  | alt (a b : Rx)
  | seq (a b : Rx)
  | opt (a : Rx)
  | plusCls (p : Char → Bool)
  | eos

/-- Zero-or-more characters of class p, then the continuation. -/
def starCls (p : Char → Bool) : List Char → (List Char → Bool) → Bool
  | [], k => k []
  | c :: rest, k => k (c :: rest) || (p c && starCls p rest k)

/-- Match a pattern at the start of the subject, in continuation style:
the continuation receives the rest of the subject. -/
def mtch : Rx → List Char → (List Char → Bool) → Bool
  | .lit cs, s, k => if cs.isPrefixOf s then k (s.drop cs.length) else false
  | .alt a b, s, k => mtch a s k || mtch b s k
  | .seq a b, s, k => mtch a s (fun t => mtch b t k)
  | .opt a, s, k => mtch a s k || k s
  | .plusCls _, [], _ => false
  | .plusCls p, c :: rest, k => p c && starCls p rest k
  | .eos, s, k => s.isEmpty && k s

/-- The test method of a JavaScript RegExp: does the pattern match at
some position of the subject string. -/
def rxTest (r : Rx) (s : String) : Bool :=
  (s.data.tails).any (fun t => mtch r t (fun _ => true))

/-- Literal pattern from a string. -/
def rlit (s : String) : Rx := .lit s.data

/-! ### Case-stability of patterns

All provider patterns consist of lower-case literals plus character
classes that are closed under ASCII lowering; for such patterns a
case-sensitive match implies a match of the lowered subject, which is
how the case-insensitive combined registry pattern is modelled. -/

def RxStable : Rx → Prop
  | .lit cs => lowerL cs = cs
  | .alt a b => RxStable a ∧ RxStable b
  | .seq a b => RxStable a ∧ RxStable b
  | .opt a => RxStable a
  | .plusCls p => ∀ c, p c = true → p (Char.toLower c) = true
  | .eos => True

/-! ## Character classes used by the provider patterns -/

/-- Class a-z, from the GoogleTagManager pattern. -/
def isLowAl (c : Char) : Bool := 97 ≤ c.toNat && c.toNat ≤ 122

/-- Class a-zA-Z0-9, from the AdobeLaunch pattern. -/
def isAlnumCh (c : Char) : Bool :=
  (97 ≤ c.toNat && c.toNat ≤ 122) || (65 ≤ c.toNat && c.toNat ≤ 90) ||
    (48 ≤ c.toNat && c.toNat ≤ 57)

/-- Class a-f0-9, from the AdobeLaunch pattern. -/
def isLowHex (c : Char) : Bool :=
  (97 ≤ c.toNat && c.toNat ≤ 102) || (48 ≤ c.toNat && c.toNat ≤ 57)

/-- Negated class excluding the slash, from the AdobeLaunch pattern. -/
def nonSlash (c : Char) : Bool := c.toNat != 47

/-! ## The provider URL patterns

Each definition is a direct transcription of the RegExp literal in the
corresponding provider constructor; escaped slashes and dots of the
JavaScript source become plain characters of the literal strings. -/

/-- Common tail collect followed by slash, question mark or end, shared
by the alternatives of the GoogleAnalytics pattern. -/
def gaCollectTail : Rx :=
  .seq (rlit "collect") (.alt (.alt (rlit "/") (rlit "?")) .eos)

/-- Pattern of GoogleAnalyticsProvider. -/
def gaPattern : Rx :=
  .alt (.seq (rlit ".google-analytics.com/") (.seq (.opt (rlit "r/")) gaCollectTail))
    (.alt (.seq (rlit ".google-analytics.com/") (.seq (.opt (rlit "j/")) gaCollectTail))
      (.alt (.seq (rlit ".google-analytics.com/") (.seq (.opt (rlit "mp/")) gaCollectTail))
        (.alt (.seq (rlit "stats.g.doubleclick.net/") (.seq (.opt (rlit "r/")) gaCollectTail))
          (.seq (rlit "analytics.google.com/") (.seq (.opt (rlit "g/")) gaCollectTail)))))

/-- Pattern of the Adobe Web SDK provider. -/
def adobeWsPattern : Rx :=
  .alt (rlit "/ee/v1/interact")
    (.alt (rlit "/edge/v1/interact")
      (.alt (rlit "/interact/v1/interact") (rlit "/collect/v1/interact")))

/-- Pattern of FacebookPixelProvider. -/
def fbPattern : Rx :=
  .seq (rlit "//www.facebook.com/tr") (.seq (.opt (rlit "/")) (.alt (rlit "?") .eos))

/-- Pattern of GoogleTagManagerProvider. -/
def gtmPattern : Rx :=
  .seq (rlit "//www.googletagmanager.com")
    (.seq (.opt (.seq (rlit "/") (.plusCls isLowAl)))
      (.seq (rlit "/") (.seq (.plusCls isLowAl) (rlit ".js"))))

/-- Pattern of AdobeLaunchProvider. -/
def adobeLaunchPattern : Rx :=
  .alt (.seq (rlit "//assets.adobedtm.com/launch-")
      (.seq (.plusCls isAlnumCh) (rlit "-development.min.js")))
    (.alt (.seq (rlit "//assets.adobedtm.com/launch-")
        (.seq (.plusCls isAlnumCh) (rlit "-staging.min.js")))
      (.alt (.seq (rlit "//assets.adobedtm.com/launch-")
          (.seq (.plusCls isAlnumCh) (rlit ".min.js")))
        (.seq (rlit "//assets.adobedtm.com/")
          (.seq (.plusCls nonSlash)
            (.seq (rlit "/")
              (.seq (.plusCls nonSlash)
                (.seq (rlit "/launch-")
                  (.seq (.plusCls isLowHex)
                    (.seq (.alt (rlit "-development") (.alt (rlit "-staging") (rlit "")))
                      (rlit ".min.js"))))))))))

/-- Pattern of TikTokProvider. -/
def tiktokPattern : Rx :=
  .seq (rlit "//analytics.tiktok.com/")
    (.seq (.opt (rlit "i18n/")) (.seq (rlit "pixel/") (.alt (rlit "track") (rlit "events"))))

/-- Pattern of PinterestProvider. -/
def pinterestPattern : Rx :=
  .alt (.seq (rlit "//ct.pinterest.com") (.seq (.opt (rlit "/v3")) (rlit "/user")))
    (.seq (rlit "//ct.pinterest.com") (.seq (.opt (rlit "/v3")) (rlit "/events")))

/-- Pattern of LinkedInProvider. -/
def linkedinPattern : Rx :=
  .alt (rlit "//px.ads.linkedin.com/collect")
    (.alt (rlit "//snap.licdn.com/li.lms-analytics/insight.min.js")
      (rlit "//platform.linkedin.com"))

/-- Pattern of TwitterProvider. -/
def twitterPattern : Rx :=
  .alt (rlit "//static.ads-twitter.com/uwt.js")
    (.alt (rlit "//analytics.twitter.com/i/adsct")
      (.alt (rlit "//t.co/i/adsct") (rlit "//platform.twitter.com/widgets.js")))

/-- Pattern of MicrosoftClarityProvider. -/
def clarityPattern : Rx :=
  .seq (rlit "//")
    (.seq (.opt (rlit "www."))
      (.seq (rlit "clarity.ms/")
        (.alt (rlit "tag")
          (.alt (rlit "collect") (.alt (rlit "eus-breeziest") (rlit "eventlogger"))))))

/-- Modelled from the spec: the GoogleAnalytics4 provider source file is
imported by the provider registration module but is absent from the
repository snapshot; its URL pattern is modelled, following the registry
test script, as matching the GA4 collection endpoint
google-analytics.com/g/collect. -/
def ga4Pattern : Rx := rlit ".google-analytics.com/g/collect"

/-- Pattern of the default BaseProvider, matching every string. -/
def basePattern : Rx := rlit ""

/-! ## JSON values

A model of the JavaScript values produced by JSON.parse.  Numbers are
modelled as integers: the claims under verification never evaluate a
payload containing a fractional number, so the fractional part of the
JSON grammar is left out of the model. -/

inductive Json where
  | null
  | bool (b : Bool)
  | num (n : Int)
  | str (s : String)
  | arr (elems : List Json)
  | obj (entries : List (String × Json))

/-- Truthiness of a JavaScript value, as used by if conditions and the
logical-or operator of the source. -/
def jsTruthy : Json → Bool
  | .null => false
  | .bool b => b
  | .num n => n != 0
  | .str s => !s.isEmpty
  | .arr _ => true
  | .obj _ => true

/-- Left and right braces as characters, for building JSON text. -/
def lbraceCh : Char := Char.ofNat 123

def rbraceCh : Char := Char.ofNat 125

mutual

/-- String conversion of a JavaScript value, modelling the String
builtin as used by URLSearchParams.append and the String calls of the
source: primitives print their usual form, arrays join their elements
with commas printing null elements as empty, and plain objects print
the object-Object placeholder. -/
def jsToString : Json → String
  | .null => "null"
  | .bool b => if b then "true" else "false"
  | .num n => toString n
  | .str s => s
  | .arr xs => String.intercalate "," (jsToStringElems xs)
  | .obj _ => "[object Object]"

/-- Element conversions inside Array.prototype.join: null prints
empty. -/
def jsToStringElems : List Json → List String
  | [] => []
  | .null :: xs => "" :: jsToStringElems xs
  | j :: xs => jsToString j :: jsToStringElems xs

end

/-- Join of an array with a separator, modelling Array.prototype.join
with its rule that null elements print as the empty string. -/
def jsJoin (sep : String) (xs : List Json) : String :=
  String.intercalate sep (jsToStringElems xs)

/-! ## Model of JSON.stringify -/

/-- Escape a string body for JSON output; quotes, backslashes and the
common control characters are escaped, other characters pass through. -/
def jsonEscape (s : String) : String :=
  ⟨s.data.flatMap (fun c =>
    if c = '"' then ['\\', '"']
    else if c = '\\' then ['\\', '\\']
    else if c = '\n' then ['\\', 'n']
    else if c = '\r' then ['\\', 'r']
    else if c = '\t' then ['\\', 't']
    else [c])⟩

mutual

/-- Compact JSON serialisation, modelling JSON.stringify with a single
argument. -/
def jsonStringify : Json → String
  | .null => "null"
  | .bool b => if b then "true" else "false"
  | .num n => toString n
  | .str s => ⟨'"' :: (jsonEscape s).data ++ ['"']⟩
  | .arr xs => ⟨'[' :: (String.intercalate "," (jsonStringifyList xs)).data ++ [']']⟩
  | .obj kvs =>
    ⟨lbraceCh :: (String.intercalate "," (jsonStringifyEntries kvs)).data ++ [rbraceCh]⟩

def jsonStringifyList : List Json → List String
  | [] => []
  | x :: xs => jsonStringify x :: jsonStringifyList xs

def jsonStringifyEntries : List (String × Json) → List String
  | [] => []
  | (k, v) :: kvs =>
    (⟨'"' :: (jsonEscape k).data ++ '"' :: ':' :: (jsonStringify v).data⟩ : String) ::
      jsonStringifyEntries kvs

end

/-- Indentation of n levels at two spaces each. -/
def jsonIndent (n : Nat) : String := ⟨List.replicate (2 * n) ' '⟩

mutual

/-- Pretty JSON serialisation at a given depth, modelling
JSON.stringify with a two-space indent third argument: composite values
put every element on a fresh indented line and empty composites print
compactly. -/
def jsonStringifyP (lvl : Nat) : Json → String
  | .arr [] => "[]"
  | .arr (x :: xs) =>
    ⟨'[' :: '\n' ::
      (String.intercalate ",\n" (jsonStringifyPList (lvl + 1) (x :: xs))).data ++
      '\n' :: (jsonIndent lvl).data ++ [']']⟩
  | .obj [] => ⟨[lbraceCh, rbraceCh]⟩
  | .obj (kv :: kvs) =>
    ⟨lbraceCh :: '\n' ::
      (String.intercalate ",\n" (jsonStringifyPEntries (lvl + 1) (kv :: kvs))).data ++
      '\n' :: (jsonIndent lvl).data ++ [rbraceCh]⟩
  | j => jsonStringify j

def jsonStringifyPList (lvl : Nat) : List Json → List String
  | [] => []
  | x :: xs => (jsonIndent lvl ++ jsonStringifyP lvl x) :: jsonStringifyPList lvl xs

def jsonStringifyPEntries (lvl : Nat) : List (String × Json) → List String
  | [] => []
  | (k, v) :: kvs =>
    (jsonIndent lvl ++ ⟨'"' :: (jsonEscape k).data ++ '"' :: ':' :: ' ' ::
        (jsonStringifyP lvl v).data⟩) :: jsonStringifyPEntries lvl kvs

end

/-- Pretty serialisation as called in the source via
JSON.stringify of a value with null and 2. -/
def jsonStringifyPretty (j : Json) : String := jsonStringifyP 0 j

/-! ## Model of JSON.parse -/

/-- Whitespace accepted by the JSON grammar. -/
def jsonWs (c : Char) : Bool := c = ' ' || c = '\t' || c = '\n' || c = '\r'

def skipWs (l : List Char) : List Char := l.dropWhile jsonWs

/-- Value of a hexadecimal digit. -/
def hexVal (c : Char) : Option Nat :=
  if 48 ≤ c.toNat ∧ c.toNat ≤ 57 then some (c.toNat - 48)
  else if 97 ≤ c.toNat ∧ c.toNat ≤ 102 then some (c.toNat - 87)
  else if 65 ≤ c.toNat ∧ c.toNat ≤ 70 then some (c.toNat - 55)
  else none

/-- Parse the body of a JSON string literal after the opening quote,
returning the decoded characters and the input after the closing
quote. -/
def jsonStrBody : List Char → Option (List Char × List Char)
  | [] => none
  | '"' :: rest => some ([], rest)
  | '\\' :: e :: rest =>
    (match e with
      | '"' => (jsonStrBody rest).map (fun (s, r) => ('"' :: s, r))
      | '\\' => (jsonStrBody rest).map (fun (s, r) => ('\\' :: s, r))
      | '/' => (jsonStrBody rest).map (fun (s, r) => ('/' :: s, r))
      | 'n' => (jsonStrBody rest).map (fun (s, r) => ('\n' :: s, r))
      | 't' => (jsonStrBody rest).map (fun (s, r) => ('\t' :: s, r))
      | 'r' => (jsonStrBody rest).map (fun (s, r) => ('\r' :: s, r))
      | 'b' => (jsonStrBody rest).map (fun (s, r) => (Char.ofNat 8 :: s, r))
      | 'f' => (jsonStrBody rest).map (fun (s, r) => (Char.ofNat 12 :: s, r))
      | 'u' =>
        (match rest with
          | h1 :: h2 :: h3 :: h4 :: rest2 =>
            (match hexVal h1, hexVal h2, hexVal h3, hexVal h4 with
              | some a, some b, some c, some d =>
                (jsonStrBody rest2).map
                  (fun (s, r) => (Char.ofNat (a * 4096 + b * 256 + c * 16 + d) :: s, r))
              | _, _, _, _ => none)
          | _ => none)
      | _ => none)
  | c :: rest => (jsonStrBody rest).map (fun (s, r) => (c :: s, r))

/-- Replace the value of a key in an entry list or append it, matching
how repeated keys of a JSON object text collapse to the last value at
the first position. -/
def upsertEntry (kvs : List (String × Json)) (k : String) (v : Json) :
    List (String × Json) :=
  if kvs.any (fun kv => kv.1 = k) then
    kvs.map (fun kv => if kv.1 = k then (k, v) else kv)
  else kvs ++ [(k, v)]

/-- Run of one or more decimal digits with its value. -/
def jpDigits : List Char → Option (Nat × List Char) :=
  fun l =>
    let ds := l.takeWhile (fun c => 48 ≤ c.toNat ∧ c.toNat ≤ 57)
    let rest := l.drop ds.length
    if ds.isEmpty then none
    else
      -- fractional and exponent forms are outside the model
      match rest with
      | '.' :: _ => none
      | 'e' :: _ => none
      | 'E' :: _ => none
      | _ => some (ds.foldl (fun acc c => acc * 10 + (c.toNat - 48)) 0, rest)

mutual

/-- Fuel-indexed recursive-descent parser over JSON text, modelling the
JSON.parse builtin.  The model covers null, booleans, integers,
strings with the common escapes, arrays and objects; fractional and
exponent number forms are outside the model and fail, which is
documented at the Json type. -/
def jpVal : Nat → List Char → Option (Json × List Char)
  | 0, _ => none
  | fuel + 1, l =>
    match skipWs l with
    | 'n' :: 'u' :: 'l' :: 'l' :: r => some (.null, r)
    | 't' :: 'r' :: 'u' :: 'e' :: r => some (.bool true, r)
    | 'f' :: 'a' :: 'l' :: 's' :: 'e' :: r => some (.bool false, r)
    | '"' :: r => (jsonStrBody r).map (fun (s, r2) => (.str ⟨s⟩, r2))
    | '[' :: r =>
      (match skipWs r with
        | ']' :: r2 => some (.arr [], r2)
        | r2 => (jpElems fuel r2).map (fun (xs, r3) => (.arr xs, r3)))
    | '-' :: r =>
      (match jpDigits r with
        | some (n, r2) => some (.num (-(n : Int)), r2)
        | none => none)
    | c :: r =>
      if c = lbraceCh then
        (match skipWs r with
          | c2 :: r2 =>
            if c2 = rbraceCh then some (.obj [], r2)
            else (jpMembers fuel [] (c2 :: r2)).map (fun (kvs, r3) => (.obj kvs, r3))
          | [] => none)
      else
        (match jpDigits (c :: r) with
          | some (n, r2) => some (.num (n : Int), r2)
          | none => none)
    | [] => none

/-- Array elements separated by commas, up to the closing bracket. -/
def jpElems : Nat → List Char → Option (List Json × List Char)
  | 0, _ => none
  | fuel + 1, l =>
    match jpVal fuel l with
    | none => none
    | some (v, r) =>
      match skipWs r with
      | ',' :: r2 => (jpElems fuel r2).map (fun (xs, r3) => (v :: xs, r3))
      | ']' :: r2 => some ([v], r2)
      | _ => none

/-- Object members separated by commas, up to the closing brace,
collapsing repeated keys to the last value. -/
def jpMembers : Nat → List (String × Json) → List Char → Option (List (String × Json) × List Char)
  | 0, _, _ => none
  | fuel + 1, acc, l =>
    match skipWs l with
    | '"' :: r =>
      (match jsonStrBody r with
        | none => none
        | some (k, r2) =>
          match skipWs r2 with
          | ':' :: r3 =>
            (match jpVal fuel r3 with
              | none => none
              | some (v, r4) =>
                let acc2 := upsertEntry acc ⟨k⟩ v
                match skipWs r4 with
                | ',' :: r5 => jpMembers fuel acc2 r5
                | c :: r5 => if c = rbraceCh then some (acc2, r5) else none
                | [] => none)
          | _ => none)
    | _ => none

end

/-- The JSON.parse builtin: parse a full text, requiring that nothing
but whitespace remains. -/
def jsonParse (s : String) : Option Json :=
  match jpVal (s.data.length + 1) s.data with
  | none => none
  | some (j, rest) => if (skipWs rest).isEmpty then some j else none

/-! ## Splitting and percent-decoding helpers -/

/-- Split a character list on every occurrence of a separator; the
result always has one more group than there are separators, matching
the split method of JavaScript strings. -/
def splitOnCh (sep : Char) : List Char → List (List Char)
  | [] => [[]]
  | c :: rest =>
    if c = sep then [] :: splitOnCh sep rest
    else
      match splitOnCh sep rest with
      | [] => [[c]]
      | g :: gs => (c :: g) :: gs

/-- Split at the first occurrence of a separator, keeping what is
before it and optionally what is after it. -/
def splitFirstCh (sep : Char) : List Char → (List Char × Option (List Char))
  | [] => ([], none)
  | c :: rest =>
    if c = sep then ([], some rest)
    else
      let (a, b) := splitFirstCh sep rest
      (c :: a, b)

/-- Decoding applied by URLSearchParams to names and values: plus
becomes space and valid percent-escapes decode, while malformed
escapes pass through unchanged; multi-byte UTF-8 escape sequences are
modelled bytewise. -/
def uspDecode : List Char → List Char
  | [] => []
  | '+' :: rest => ' ' :: uspDecode rest
  | '%' :: h1 :: h2 :: rest =>
    (match hexVal h1, hexVal h2 with
      | some a, some b => Char.ofNat (a * 16 + b) :: uspDecode rest
      | _, _ => '%' :: uspDecode (h1 :: h2 :: rest))
  | c :: rest => c :: uspDecode rest

/-- The decodeURIComponent builtin: like percent decoding but throwing
a URIError on a malformed escape, modelled with Option; the plus sign
is kept verbatim and multi-byte sequences are modelled bytewise. -/
def jsDecodeURIComponent : List Char → Option (List Char)
  | [] => some []
  | '%' :: h1 :: h2 :: rest =>
    (match hexVal h1, hexVal h2 with
      | some a, some b => (jsDecodeURIComponent rest).map (Char.ofNat (a * 16 + b) :: ·)
      | _, _ => none)
  | '%' :: _ => none
  | c :: rest => (jsDecodeURIComponent rest).map (c :: ·)

/-- String-level decodeURIComponent. -/
def jsDecodeS (s : String) : Option String :=
  (jsDecodeURIComponent s.data).map (fun l => ⟨l⟩)

/-! ## Model of the URL and URLSearchParams builtins -/

/-- The components of a parsed URL that the source reads. -/
structure UrlParts where
  href : String
  hostname : String
  pathname : String
  search : String

/-- Model of the WHATWG URL constructor for absolute http and https
URLs: the scheme is recognised case-insensitively, the authority runs
to the first slash, question mark or hash, the hostname is lowered,
the pathname defaults to a single slash, the search keeps its leading
question mark and is empty for a bare trailing question mark, and a
fragment is cut off.  Userinfo and port splitting, scheme and host
normalisation beyond lowering, and non-http schemes are outside the
model; every raw string used in the theorems below is in the covered
fragment.  The href is modelled as the raw input, which on the
already-normalised inputs used here equals the serialised URL.  A
string without a recognised absolute http scheme fails like the
builtin with a TypeError whose message is Invalid URL. -/
def jsURL (raw : String) : Except String UrlParts :=
  let l := raw.data
  let lo := lowerL l
  let schemeLen :=
    if "https://".data.isPrefixOf lo then some 8
    else if "http://".data.isPrefixOf lo then some 7
    else none
  match schemeLen with
  | none => .error "Invalid URL"
  | some n =>
    let rest := (splitFirstCh '#' (l.drop n)).1
    let auth := rest.takeWhile (fun c => ¬ (c = '/' ∨ c = '?'))
    let pq := rest.drop auth.length
    if auth.isEmpty then .error "Invalid URL"
    else
      let (path, query) :=
        match pq with
        | '?' :: q => (['/'], some q)
        | _ =>
          let (p, q) := splitFirstCh '?' pq
          (if p.isEmpty then ['/'] else p, q)
      .ok
        { href := raw
          hostname := ⟨lowerL auth⟩
          pathname := ⟨path⟩
          search :=
            match query with
            | none => ""
            | some [] => ""
            | some q => ⟨'?' :: q⟩ }

/-- Model of the URLSearchParams constructor over a search string: an
optional leading question mark is dropped, pieces split on ampersands,
empty pieces vanish, each piece splits at its first equals sign, and
names and values decode. -/
def uspParse (search : String) : List (String × String) :=
  let l := match search.data with
    | '?' :: rest => rest
    | l => l
  (splitOnCh '&' l).filterMap (fun piece =>
    if piece.isEmpty then none
    else
      let (k, v) := splitFirstCh '=' piece
      some ((⟨uspDecode k⟩ : String), (⟨uspDecode (v.getD [])⟩ : String)))

/-- The get method of URLSearchParams: first value for the name, null
when absent. -/
def uspGet (params : List (String × String)) (k : String) : Option String :=
  (params.find? (fun kv => kv.1 = k)).map (fun kv => kv.2)

/-- The has method of URLSearchParams. -/
def uspHas (params : List (String × String)) (k : String) : Bool :=
  params.any (fun kv => kv.1 = k)

/-! ## Core data of the engine -/

/-- The global RegExp capture state: the numbered captures of the most
recent successful regex match, as read through the static dollar
properties of RegExp in the source.  A failed test leaves the state
unchanged. -/
def RegexSt := List String

/-- One entry of a provider field catalog: optional display name,
optional group and hidden marker, matching the object literals under
the keys getters of the providers. -/
structure CatalogEntry where
  name : Option String
  group : Option String
  hidden : Bool
  deriving DecidableEq

/-- A decoded field as pushed by the providers: display label, value
and group are optional because some pushes omit them, and the value
carries a JavaScript value because some custom hooks push non-string
values. -/
structure ParsedField where
  key : String
  field : Option String
  value : Json
  group : Option String
  hidden : Bool

/-- Provider identity block of a ParseResult. -/
structure ProviderInfo where
  name : String
  key : String
  type : String
  columns : List (String × String)
  groups : List (String × String)

/-- Result of one parse call. -/
structure ParseResult where
  provider : ProviderInfo
  data : List ParsedField
  error : Option String

/-- The logical-or fallback of the source on possibly-absent strings:
undefined and the empty string both fall through to the default. -/
def jsOrS (o : Option String) (d : String) : String :=
  match o with
  | some s => if s.isEmpty then d else s
  | none => d

/-- The type getter of BaseProvider: a fixed table from the internal
type tag to a display category, defaulting to Unknown. -/
def typeDisplay (t : String) : String :=
  if t = "analytics" then "Analytics"
  else if t = "customer" then "Customer Engagement"
  else if t = "testing" then "UX Testing"
  else if t = "tagmanager" then "Tag Manager"
  else if t = "visitorid" then "Visitor Identification"
  else if t = "marketing" then "Marketing"
  else if t = "replay" then "Session Replay/Heat Maps"
  else "Unknown"

/-! ## Catalog lookup

The source looks a parameter name up with a plain JavaScript property
access on an object literal.  Such an access falls through to
Object.prototype, so a handful of names hit inherited function
properties instead of returning undefined: for these the truthiness
test of the source succeeds and the read of the name property of the
found function yields the function name, which for the constructor
property is Object rather than the raw key.  The model reproduces
exactly this. -/

/-- Names inheriting a function of Object.prototype whose own name
property equals the key. -/
def protoFnNames : List String :=
  ["hasOwnProperty", "isPrototypeOf", "propertyIsEnumerable", "toLocaleString",
    "toString", "valueOf", "__defineGetter__", "__defineSetter__",
    "__lookupGetter__", "__lookupSetter__"]

/-- Inherited entries found by a property access on an object literal
that misses every own key. -/
def protoEntry (name : String) : Option CatalogEntry :=
  if name = "constructor" then some { name := some "Object", group := none, hidden := false }
  else if protoFnNames.contains name then
    some { name := some name, group := none, hidden := false }
  else if name = "__proto__" then some { name := none, group := none, hidden := false }
  else none

/-- Property access on a catalog object literal: own keys first, then
the Object.prototype fallback. -/
def catalogGet (cat : List (String × CatalogEntry)) (name : String) : Option CatalogEntry :=
  match cat.find? (fun kv => kv.1 = name) with
  | some kv => some kv.2
  | none => protoEntry name

/-- BaseProvider.handleQueryParam: look the key up, produce nothing
when the entry is hidden, and otherwise produce a field whose label
and group fall back to the raw key and to the group named other. -/
def baseHandleQueryParam (cat : List (String × CatalogEntry)) (name value : String) :
    Option ParsedField :=
  let param := (catalogGet cat name).getD { name := none, group := none, hidden := false }
  if !param.hidden then
    some
      { key := name, field := some (jsOrS param.name name), value := .str value,
        group := some (jsOrS param.group "other"), hidden := false }
  else none

/-! ## BaseProvider.parsePostData

The recursive flattening of a JSON body, a direct transcription of the
inner recurse closure: primitives emit one pair, arrays recurse per
element with a bracketed index and emit one empty-string pair when
empty, objects recurse per property with a dotted path and emit one
empty-string pair when empty at a non-empty path. -/

mutual

def jsonFlattenVal : Json → String → List (String × Json)
  | .arr xs, prop =>
    jsonFlattenArr xs 0 prop ++ (if xs.isEmpty then [(prop, Json.str "")] else [])
  | .obj kvs, prop =>
    jsonFlattenObj kvs prop ++
      (if kvs.isEmpty ∧ ¬ prop.isEmpty then [(prop, Json.str "")] else [])
  | j, prop => [(prop, j)]

def jsonFlattenArr : List Json → Nat → String → List (String × Json)
  | [], _, _ => []
  | x :: xs, i, prop =>
    jsonFlattenVal x (prop ++ "[" ++ toString i ++ "]") ++ jsonFlattenArr xs (i + 1) prop

def jsonFlattenObj : List (String × Json) → String → List (String × Json)
  | [], _ => []
  | (k, v) :: kvs, prop =>
    jsonFlattenVal v (if prop.isEmpty then k else prop ++ "." ++ k) ++ jsonFlattenObj kvs prop

end

/-- Fallback decoding of a body that is not JSON: split on ampersands,
split each piece at equals signs keeping only the second component as
the value, and value-decode; a URIError aborts the iteration keeping
the pairs already pushed, matching the inner try-catch of the source. -/
def formDecodeLoop : List (List Char) → List (String × Json)
  | [] => []
  | piece :: rest =>
    let parts := splitOnCh '=' piece
    let key : String := ⟨parts.headD []⟩
    let rawVal := (parts.drop 1).headD []
    match jsDecodeURIComponent rawVal with
    | none => []
    | some v => (key, .str ⟨v⟩) :: formDecodeLoop rest

/-- BaseProvider.parsePostData on a string body: an empty string is
falsy and yields no pairs, a JSON body flattens recursively, anything
else falls back to form decoding.  The source also accepts an object
body from callers that pass pre-parsed form data; the claims under
verification only exercise the string branch, which is the one
embedded. -/
def parsePostData (postData : String) : List (String × Json) :=
  if postData.isEmpty then []
  else
    match jsonParse postData with
    | some parsed => jsonFlattenVal parsed ""
    | none => formDecodeLoop (splitOnCh '&' postData.data)

/-! ## Providers and the generic parse flow -/

/-- A provider, as the data of one BaseProvider subclass: identity,
URL pattern, catalog, the two extension hooks, and an optional full
override of parseUrl used by the Adobe Web SDK provider.  The hooks
thread the RegExp capture state and the override may throw. -/
structure Provider where
  key : String
  name : String
  typeRaw : String
  pattern : Rx
  columnMapping : List (String × String)
  groups : List (String × String)
  keys : List (String × CatalogEntry)
  hqp : String → String → RegexSt → (Option ParsedField × RegexSt)
  custom : UrlParts → List (String × String) → RegexSt → (List ParsedField × RegexSt)
  parseOverride : Option (String → String → RegexSt → (Except String ParseResult × RegexSt))

/-- BaseProvider.checkUrl: test the pattern against the raw URL. -/
def Provider.checkUrl (p : Provider) (url : String) : Bool := rxTest p.pattern url

/-- The pattern of a provider as it behaves inside the case-insensitive
combined registry pattern: a match of the lowered subject. -/
def Provider.ciTest (p : Provider) (url : String) : Bool := rxTest p.pattern (lowerS url)

/-- The provider identity block returned by parseUrl. -/
def providerInfo (p : Provider) : ProviderInfo :=
  { name := p.name, key := p.key, type := typeDisplay p.typeRaw,
    columns := p.columnMapping, groups := p.groups }

/-- The per-parameter loop of BaseProvider.parseUrl, pushing each
produced field and threading the capture state. -/
def hqpLoop (p : Provider) : List (String × String) → RegexSt → (List ParsedField × RegexSt)
  | [], st => ([], st)
  | kv :: rest, st =>
    let (r, st1) := p.hqp kv.1 kv.2 st
    let (fs, st2) := hqpLoop p rest st1
    (r.toList ++ fs, st2)

/-- BaseProvider.parseUrl: parse the URL and its query, flatten the
body into extra parameters, run the per-parameter hook on every pair,
append the custom fields, and on a URL parse failure return the
provider identity with empty data and the failure message. -/
def baseParseUrl (p : Provider) (rawUrl postData : String) (st : RegexSt) :
    ParseResult × RegexSt :=
  match jsURL rawUrl with
  | .error msg => ({ provider := providerInfo p, data := [], error := some msg }, st)
  | .ok url =>
    let params := uspParse url.search ++
      (parsePostData postData).map (fun kv => (kv.1, jsToString kv.2))
    let (fields, st1) := hqpLoop p params st
    let (customFields, st2) := p.custom url params st1
    ({ provider := providerInfo p, data := fields ++ customFields, error := none }, st2)

/-- The parseUrl entry point of a provider: the inherited BaseProvider
implementation unless the provider overrides it. -/
def Provider.parseUrl (p : Provider) (rawUrl postData : String) (st : RegexSt) :
    Except String ParseResult × RegexSt :=
  match p.parseOverride with
  | some f => f rawUrl postData st
  | none =>
    let (r, st1) := baseParseUrl p rawUrl postData st
    (.ok r, st1)

/-- The default provider constructed by the registry when no provider
matches: empty identity, match-all pattern, empty catalog, inherited
hooks. -/
def defaultProvider : Provider :=
  { key := "", name := "", typeRaw := "", pattern := basePattern,
    columnMapping := [], groups := [], keys := [],
    hqp := fun n v st => (baseHandleQueryParam [] n v, st),
    custom := fun _ _ st => ([], st),
    parseOverride := none }

/-! ## The provider registry

ProviderRegistry keeps providers in an insertion-ordered map keyed by
provider key and a list of the pattern sources pushed by every
addProvider call; the combined detection pattern is rebuilt from that
list with the case-insensitive flag.  A for-in loop over the provider
map visits insertion order, which the model keeps as list order, and
adding a provider under an existing key replaces it in place while its
pattern is pushed again. -/

structure Registry where
  providers : List Provider
  patterns : List Rx

def emptyRegistry : Registry := { providers := [], patterns := [] }

def Registry.addProvider (r : Registry) (p : Provider) : Registry :=
  { providers :=
      if r.providers.any (fun q => q.key = p.key) then
        r.providers.map (fun q => if q.key = p.key then p else q)
      else r.providers ++ [p]
    patterns := r.patterns ++ [p.pattern] }

/-- A registry built by a sequence of addProvider calls on the fresh
registry of the constructor. -/
def mkRegistry (ps : List Provider) : Registry :=
  ps.foldl Registry.addProvider emptyRegistry

/-- ProviderRegistry.checkUrl: test the combined pattern.  The
constructor seeds an empty RegExp that matches everything; once
patterns are pushed the combined pattern is their alternation compiled
with the case-insensitive flag, modelled as a case-sensitive test of
the lowered subject, which is exact for the case-stable patterns of
this code base. -/
def Registry.checkUrl (r : Registry) (url : String) : Bool :=
  if r.patterns.isEmpty then true
  else r.patterns.any (fun rx => rxTest rx (lowerS url))

/-- The early-return lookup loop of getProviderForUrl. -/
def gpfLoop : List Provider → String → Provider
  | [], _ => defaultProvider
  | p :: ps, url => if p.checkUrl url then p else gpfLoop ps url

/-- ProviderRegistry.getProviderForUrl: first provider whose own
pattern matches, else a fresh BaseProvider. -/
def Registry.getProviderForUrl (r : Registry) (url : String) : Provider :=
  gpfLoop r.providers url

/-- The push loop of getMatchingProviders. -/
def gmpLoop : List Provider → String → List Provider
  | [], _ => []
  | p :: ps, url => (if p.checkUrl url then [p] else []) ++ gmpLoop ps url

/-- ProviderRegistry.getMatchingProviders. -/
def Registry.getMatchingProviders (r : Registry) (url : String) : List Provider :=
  gmpLoop r.providers url

/-- ProviderRegistry.parseUrl: delegate to the provider found for the
URL. -/
def Registry.parseUrl (r : Registry) (url postData : String) (st : RegexSt) :
    Except String ParseResult × RegexSt :=
  (r.getProviderForUrl url).parseUrl url postData st

/-! ## Google Analytics 4 provider (modelled)

Modelled from the spec: the GoogleAnalytics4 provider file is imported
and registered first by the provider registration module but its
source file is missing from the repository snapshot.  Identity and
pattern follow the registration module and the provider test script;
the hooks are the inherited BaseProvider defaults over a minimal
catalog, which suffices because no claim below evaluates the internals
of this provider. -/

def ga4Provider : Provider :=
  { key := "GOOGLEANALYTICS4", name := "Google Analytics 4", typeRaw := "analytics",
    pattern := ga4Pattern,
    columnMapping := [("account", "tid"), ("requestType", "requestType")],
    groups := [("general", "General")],
    keys := [("tid", { name := some "Measurement ID", group := some "general", hidden := false }),
      ("requestType", { name := none, group := none, hidden := true })],
    hqp := fun n v st =>
      (baseHandleQueryParam
        [("tid", { name := some "Measurement ID", group := some "general", hidden := false }),
          ("requestType", { name := none, group := none, hidden := true })] n v, st),
    custom := fun _ _ st => ([], st),
    parseOverride := none }

/-! ## Google Analytics (Universal) provider -/

/-- Shorthand for a visible catalog entry. -/
def ce (n g : String) : CatalogEntry := { name := some n, group := some g, hidden := false }

/-- Shorthand for a hidden catalog entry. -/
def ceH : CatalogEntry := { name := none, group := none, hidden := true }

def gaKeys : List (String × CatalogEntry) :=
  [("v", ce "Protocol Version" "general"), ("tid", ce "Tracking ID" "general"),
    ("aip", ce "Anonymize IP" "general"), ("qt", ce "Queue Time" "general"),
    ("z", ce "Cache Buster" "general"), ("cid", ce "Client ID" "general"),
    ("sc", ce "Session Control" "general"), ("dr", ce "Document Referrer" "general"),
    ("cn", ce "Campaign Name" "campaign"), ("cs", ce "Campaign Source" "campaign"),
    ("cm", ce "Campaign Medium" "campaign"), ("ck", ce "Campaign Keyword" "campaign"),
    ("cc", ce "Campaign Content" "campaign"), ("ci", ce "Campaign ID" "campaign"),
    ("gclid", ce "Google AdWords ID" "campaign"), ("dclid", ce "Google Display Ads ID" "campaign"),
    ("sr", ce "Screen Resolution" "general"), ("vp", ce "Viewport Size" "general"),
    ("de", ce "Document Encoding" "general"), ("sd", ce "Screen Colors" "general"),
    ("ul", ce "User Language" "general"), ("je", ce "Java Enabled" "general"),
    ("fl", ce "Flash Version" "general"), ("t", ce "Hit Type" "general"),
    ("ni", ce "Non-Interaction Hit" "events"), ("dl", ce "Document location URL" "general"),
    ("dh", ce "Document Host Name" "general"), ("dp", ce "Document Path" "general"),
    ("dt", ce "Document Title" "general"), ("cd", ce "Content Description" "general"),
    ("an", ce "Application Name" "general"), ("av", ce "Application Version" "general"),
    ("ec", ce "Event Category" "events"), ("ea", ce "Event Action" "events"),
    ("el", ce "Event Label" "events"), ("ev", ce "Event Value" "events"),
    ("ta", ce "Transaction Affiliation" "ecommerce"), ("tr", ce "Transaction Revenue" "ecommerce"),
    ("ts", ce "Transaction Shipping" "ecommerce"), ("tt", ce "Transaction Tax" "ecommerce"),
    ("ti", ce "Transaction ID" "ecommerce"), ("in", ce "Item Name" "ecommerce"),
    ("ip", ce "Item Price" "ecommerce"), ("iq", ce "Item Quantity" "ecommerce"),
    ("ic", ce "Item Code" "ecommerce"), ("iv", ce "Item Category" "ecommerce"),
    ("cu", ce "Currency Code" "ecommerce"), ("sn", ce "Social Network" "events"),
    ("sa", ce "Social Action" "events"), ("st", ce "Social Action Target" "events"),
    ("utc", ce "User Timing Category" "timing"), ("utv", ce "User Timing Variable Name" "timing"),
    ("utt", ce "User Timing Time" "timing"), ("utl", ce "User timing Label" "timing"),
    ("plt", ce "Page load time" "timing"), ("dns", ce "DNS time" "timing"),
    ("pdt", ce "Page download time" "timing"), ("rrt", ce "Redirect response time" "timing"),
    ("tcp", ce "TCP connect time" "timing"), ("srt", ce "Server response time" "timing"),
    ("exd", ce "Exception description" "events"), ("exf", ce "Is exception fatal?" "events"),
    ("ds", ce "Data Source" "general"), ("uid", ce "User ID" "general"),
    ("linkid", ce "Link ID" "general"), ("pa", ce "Product Action" "ecommerce"),
    ("tcc", ce "Coupon Code" "ecommerce"), ("pal", ce "Product Action List" "ecommerce"),
    ("cos", ce "Checkout Step" "ecommerce"), ("col", ce "Checkout Step Option" "ecommerce"),
    ("promoa", ce "Promotion Action" "ecommerce"), ("_r", ce "Display Features Enabled" "general"),
    ("requestType", ceH)]

/-- Decimal digit class. -/
def isDigitCh (c : Char) : Bool := 48 ≤ c.toNat && c.toNat ≤ 57

/-- A letter under the case-insensitive flag, as matched by the class
a-z with flag i. -/
def isLetterCI (c : Char) : Bool := isLowAl (Char.toLower c)

/-- Word character class backslash-w of JavaScript regexes. -/
def isWordCh (c : Char) : Bool :=
  isLowAl (Char.toLower c) || isDigitCh c || c = '_'

/-- Drop a case-insensitive literal head, keeping the original tail. -/
def ciPrefixDrop (pre : String) (l : List Char) : Option (List Char) :=
  if lowerL (l.take pre.data.length) = pre.data then some (l.drop pre.data.length) else none

/-- Split a maximal run of decimal digits. -/
def digitSpan (l : List Char) : List Char × List Char :=
  (l.takeWhile isDigitCh, l.dropWhile isDigitCh)

/-- Anchored matcher for the GoogleAnalytics parameter families of the
shape prefix, digit run, end: used by the content group, custom
dimension and custom metric branches. -/
def gaNumTail (pre : String) (name : String) : Option String :=
  match ciPrefixDrop pre name.data with
  | none => none
  | some rest =>
    let (ds, r) := digitSpan rest
    if ds.isEmpty || !r.isEmpty then none else some ⟨ds⟩

/-- Anchored matcher for prefix, digit run, two letters, end. -/
def gaNumTwoLetters (pre : String) (name : String) : Option (String × String) :=
  match ciPrefixDrop pre name.data with
  | none => none
  | some rest =>
    let (ds, r) := digitSpan rest
    match r with
    | [a, b] =>
      if ds.isEmpty || !(isLetterCI a && isLetterCI b) then none else some (⟨ds⟩, ⟨[a, b]⟩)
    | _ => none

/-- Case-insensitive match of the two-letter cd-or-cm alternative,
keeping the original characters as the capture. -/
def cdCmDrop (l : List Char) : Option (String × List Char) :=
  match l with
  | a :: b :: rest =>
    if lowerL [a, b] = "cd".data || lowerL [a, b] = "cm".data then some (⟨[a, b]⟩, rest)
    else none
  | _ => none

/-- Anchored matcher for prefix, digit run, cd or cm, digit run,
end: the product custom dimension and metric branch. -/
def gaNumCdCmNum (pre : String) (name : String) : Option (String × String × String) :=
  match ciPrefixDrop pre name.data with
  | none => none
  | some rest =>
    let (ds1, r1) := digitSpan rest
    if ds1.isEmpty then none
    else
      match cdCmDrop r1 with
      | none => none
      | some (mid, r2) =>
        let (ds2, r3) := digitSpan r2
        if ds2.isEmpty || !r3.isEmpty then none else some (⟨ds1⟩, mid, ⟨ds2⟩)

/-- Anchored matcher for il, digit run, nm, end. -/
def gaIlNm (name : String) : Option String :=
  match ciPrefixDrop "il" name.data with
  | none => none
  | some rest =>
    let (ds, r) := digitSpan rest
    if ds.isEmpty then none
    else if lowerL r = "nm".data then some ⟨ds⟩ else none

/-- Anchored matcher for il, digits, pi, digits, cd or cm, digits,
end. -/
def gaIlPiCdCm (name : String) : Option (String × String × String × String) :=
  match ciPrefixDrop "il" name.data with
  | none => none
  | some rest =>
    let (ds1, r1) := digitSpan rest
    if ds1.isEmpty then none
    else
      match ciPrefixDrop "pi" r1 with
      | none => none
      | some r2 =>
        let (ds2, r3) := digitSpan r2
        if ds2.isEmpty then none
        else
          match cdCmDrop r3 with
          | none => none
          | some (mid, r4) =>
            let (ds3, r5) := digitSpan r4
            if ds3.isEmpty || !r5.isEmpty then none else some (⟨ds1⟩, ⟨ds2⟩, mid, ⟨ds3⟩)

/-- Anchored matcher for il, digits, pi, digits, two letters, end. -/
def gaIlPiTwoLetters (name : String) : Option (String × String × String) :=
  match ciPrefixDrop "il" name.data with
  | none => none
  | some rest =>
    let (ds1, r1) := digitSpan rest
    if ds1.isEmpty then none
    else
      match ciPrefixDrop "pi" r1 with
      | none => none
      | some r2 =>
        let (ds2, r3) := digitSpan r2
        if ds2.isEmpty then none
        else
          match r3 with
          | [a, b] =>
            if isLetterCI a && isLetterCI b then some (⟨ds1⟩, ⟨ds2⟩, ⟨[a, b]⟩) else none
          | _ => none

/-- Lookup table value by exact key with empty-string fallback, as the
lookup objects of the GoogleAnalytics per-parameter branches. -/
def tblGet (tbl : List (String × String)) (k : String) : String :=
  ((tbl.find? (fun kv => kv.1 = k)).map (fun kv => kv.2)).getD ""

def gaPromoTbl : List (String × String) :=
  [("id", "ID"), ("nm", "Name"), ("cr", "Creative"), ("ps", "Position")]

def gaProductTbl : List (String × String) :=
  [("id", "ID"), ("nm", "Name"), ("br", "Brand"), ("ca", "Category"), ("va", "Variant"),
    ("pr", "Price"), ("qt", "Quantity"), ("cc", "Coupon Code"), ("ps", "Position")]

def gaCdCmTbl : List (String × String) := [("cd", "Dimension"), ("cm", "Metric")]

def gaImpProductTbl : List (String × String) :=
  [("id", "ID"), ("nm", "Name"), ("br", "Brand"), ("ca", "Category"), ("va", "Variant"),
    ("pr", "Price"), ("ps", "Position")]

/-- GoogleAnalyticsProvider.handleQueryParam: nine anchored regex
branches over dynamically numbered parameter families, each reading
its captures right after a successful test, then the inherited catalog
lookup. -/
def gaHqp (name value : String) (st : RegexSt) : Option ParsedField × RegexSt :=
  match gaNumTail "cg" name with
  | some d =>
    (some { key := name, field := some ("Content Group " ++ d), value := .str value, group := some "contentgroup", hidden := false }, [d])
  | none =>
  match gaNumTail "cd" name with
  | some d =>
    (some { key := name, field := some ("Dimension " ++ d), value := .str value, group := some "dimensions", hidden := false }, [d])
  | none =>
  match gaNumTail "cm" name with
  | some d =>
    (some { key := name, field := some ("Metric " ++ d), value := .str value, group := some "metrics", hidden := false }, [d])
  | none =>
  match gaNumTwoLetters "promo" name with
  | some (d, suffx) =>
    (some { key := name, field := some ("Promotion " ++ d ++ " " ++ tblGet gaPromoTbl suffx), value := .str value, group := some "ecommerce", hidden := false }, [d, suffx])
  | none =>
  match gaNumTwoLetters "pr" name with
  | some (d, suffx) =>
    (some { key := name, field := some ("Product " ++ d ++ " " ++ tblGet gaProductTbl suffx), value := .str value, group := some "ecommerce", hidden := false }, [d, suffx])
  | none =>
  match gaNumCdCmNum "pr" name with
  | some (d1, mid, d2) =>
    (some { key := name, field := some ("Product " ++ d1 ++ " " ++ tblGet gaCdCmTbl mid ++ " " ++ d2), value := .str value, group := some "ecommerce", hidden := false }, [d1, mid, d2])
  | none =>
  match gaIlNm name with
  | some d =>
    (some { key := name, field := some ("Impression List " ++ d), value := .str value, group := some "ecommerce", hidden := false }, [d])
  | none =>
  match gaIlPiCdCm name with
  | some (d1, d2, mid, d3) =>
    (some { key := name, field := some ("Impression List " ++ d1 ++ " Product " ++ d2 ++ " " ++ tblGet gaCdCmTbl mid ++ " " ++ d3), value := .str value, group := some "ecommerce", hidden := false }, [d1, d2, mid, d3])
  | none =>
  match gaIlPiTwoLetters name with
  | some (d1, d2, suffx) =>
    (some { key := name, field := some ("Impression List " ++ d1 ++ " Product " ++ d2 ++ " " ++ tblGet gaImpProductTbl suffx), value := .str value, group := some "ecommerce", hidden := false }, [d1, d2, suffx])
  | none => (baseHandleQueryParam gaKeys name value, st)

/-- First character to upper case, rest untouched, as the default hit
type display of the GoogleAnalytics custom hook. -/
def capFirst (s : String) : String :=
  match s.data with
  | [] => ""
  | c :: rest => ⟨Char.toUpper c :: rest⟩

/-- GoogleAnalyticsProvider.handleCustom: a hostname field and the
hidden request type classification derived from the t parameter. -/
def gaCustom (url : UrlParts) (params : List (String × String)) (st : RegexSt) :
    List ParsedField × RegexSt :=
  let requestType :=
    match uspGet params "t" with
    | some t0 =>
      let hitType := lowerS t0
      if hitType = "pageview" then "Page View"
      else if hitType = "event" then "Event"
      else if hitType = "transaction" then "Transaction"
      else if hitType = "item" then "Item"
      else if hitType = "social" then "Social"
      else if hitType = "timing" then "Timing"
      else if hitType = "exception" then "Exception"
      else capFirst hitType
    | none => "Other"
  ([{ key := "omnibug_hostname", field := some "Google Analytics Host",
      value := .str url.hostname, group := some "general", hidden := false },
    { key := "omnibug_requestType", field := none, value := .str requestType,
      group := none, hidden := true }], st)

def gaProvider : Provider :=
  { key := "GOOGLEANALYTICS", name := "Google Analytics (Universal)", typeRaw := "analytics",
    pattern := gaPattern,
    columnMapping := [("account", "tid"), ("requestType", "omnibug_requestType")],
    groups := [("general", "General"), ("campaign", "Campaign"), ("events", "Events"),
      ("ecommerce", "Ecommerce"), ("timing", "Timing"), ("dimensions", "Custom Dimensions"),
      ("metrics", "Custom Metrics"), ("contentgroup", "Content Groups")],
    keys := gaKeys,
    hqp := gaHqp,
    custom := gaCustom,
    parseOverride := none }

/-! ## Adobe Web SDK provider

The provider class in the Adobe Web SDK file overrides parseUrl
entirely; its URL construction is outside any try block, so a URL
parse failure escapes as an exception.  The file is the import target
of the third addProvider call of the registration module. -/

/-- Property access on a parsed JSON value as done by the dot reads of
the source: reading a property of null throws, reading a missing
property of anything else yields undefined. -/
def jsGetField : Json → String → Except Unit (Option Json)
  | .null, _ => .error ()
  | .obj kvs, k => .ok ((kvs.find? (fun kv => kv.1 = k)).map (fun kv => kv.2))
  | _, _ => .ok none

/-- Substring containment test of JavaScript strings. -/
def sContains (s sub : String) : Bool :=
  s.data.tails.any (fun t => sub.data.isPrefixOf t)

/-- Object.entries over a non-null value: own entries of an object,
indexed entries of an array, indexed single-character strings of a
string, and nothing for other primitives.  The callers of the source
only reach this behind a truthiness guard, so the null case of the
builtin, which throws, is unreachable here and modelled as empty. -/
def jsEntriesTotal : Json → List (String × Json)
  | .obj kvs => kvs
  | .arr xs => xs.enum.map (fun iv => (toString iv.1, iv.2))
  | .str s => s.data.enum.map (fun ic => (toString ic.1, Json.str ⟨[ic.2]⟩))
  | _ => []

/-- The group classification heuristic of processXdmObject. -/
def xdmGroup (key fullKey pfx : String) : String :=
  if sContains key "analytics" || sContains fullKey "analytics" then "analytics"
  else if sContains key "target" || sContains fullKey "target" then "target"
  else if sContains key "identity" || key = "ECID" || sContains fullKey "identity" then "identity"
  else if sContains pfx "__adobe" then
    (if sContains pfx "target" then "target"
      else if sContains pfx "analytics" then "analytics"
      else "xdm")
  else "xdm"

/-- The sentinel emitted when the depth guard of processXdmObject
fires. -/
def xdmSentinel (pfx : String) : ParsedField :=
  { key := pfx ++ ".maxDepthExceeded", field := some (pfx ++ " (Max Depth Exceeded)"),
    value := .str "Object too deep to display fully", group := some "xdm", hidden := false }

/-- Does the typeof operator answer object for this value: null,
arrays and plain objects. -/
def isObjLike : Json → Bool
  | .null => true
  | .arr _ => true
  | .obj _ => true
  | _ => false

mutual

/-- AdobeWebSdkProvider.processXdmObject: recursion over the entries
of a nested value with a depth guard at ten. -/
def adobeWsProcessXdm (j : Json) (pfx : String) (depth : Nat) : List ParsedField :=
  if depth > 10 then [xdmSentinel pfx]
  else
    match j with
    | .obj kvs => adobeWsXdmEntries kvs pfx depth
    | .arr xs => adobeWsXdmIdx xs 0 pfx depth
    | .str s =>
      (s.data.enum.map (fun ic => (toString ic.1, Json.str ⟨[ic.2]⟩))).map
        (fun kv =>
          { key := (if pfx.isEmpty then kv.1 else pfx ++ "." ++ kv.1),
            field := some kv.1, value := kv.2,
            group := some (xdmGroup kv.1
              (if pfx.isEmpty then kv.1 else pfx ++ "." ++ kv.1) pfx),
            hidden := false })
    | _ => []
termination_by (sizeOf j, 0)

/-- The per-entry body of the loop of processXdmObject. -/
def adobeWsXdmVal (key fullKey group : String) (value : Json) (depth : Nat) :
    List ParsedField :=
  match value with
  | .null =>
    [{ key := fullKey, field := some key, value := .str "null", group := some group,
       hidden := false }]
  | .obj kvs => adobeWsProcessXdm (.obj kvs) fullKey (depth + 1)
  | .arr [] =>
    [{ key := fullKey, field := some key, value := .str "[]", group := some group,
       hidden := false }]
  | .arr (x :: xs) =>
    if isObjLike x then adobeWsXdmArr (x :: xs) 0 fullKey key group depth
    else
      [{ key := fullKey, field := some key, value := .str (jsJoin ", " (x :: xs)),
         group := some group, hidden := false }]
  | v =>
    [{ key := fullKey, field := some key, value := .str (jsToString v), group := some group,
       hidden := false }]
termination_by (sizeOf value, 1)

/-- The loop of processXdmObject over the own entries of an object. -/
def adobeWsXdmEntries : List (String × Json) → String → Nat → List ParsedField
  | [], _, _ => []
  | (key, value) :: rest, pfx, depth =>
    let fullKey := if pfx.isEmpty then key else pfx ++ "." ++ key
    adobeWsXdmVal key fullKey (xdmGroup key fullKey pfx) value depth ++
      adobeWsXdmEntries rest pfx depth
termination_by l _ _ => (sizeOf l, 2)

/-- The loop of processXdmObject over the indexed entries of an
array argument, as produced by Object.entries on arrays. -/
def adobeWsXdmIdx : List Json → Nat → String → Nat → List ParsedField
  | [], _, _, _ => []
  | value :: rest, i, pfx, depth =>
    let key := toString i
    let fullKey := if pfx.isEmpty then key else pfx ++ "." ++ key
    adobeWsXdmVal key fullKey (xdmGroup key fullKey pfx) value depth ++
      adobeWsXdmIdx rest (i + 1) pfx depth
termination_by l _ _ _ => (sizeOf l, 2)

/-- The inner loop over an array whose first element answers object to
typeof: object items recurse, other items print. -/
def adobeWsXdmArr : List Json → Nat → String → String → String → Nat → List ParsedField
  | [], _, _, _, _, _ => []
  | item :: rest, idx, fullKey, fieldName, group, depth =>
    (match item with
      | .obj kvs => adobeWsProcessXdm (.obj kvs) (fullKey ++ "[" ++ toString idx ++ "]") (depth + 1)
      | .arr xs => adobeWsProcessXdm (.arr xs) (fullKey ++ "[" ++ toString idx ++ "]") (depth + 1)
      | it =>
        [{ key := fullKey ++ "[" ++ toString idx ++ "]",
           field := some (fieldName ++ "[" ++ toString idx ++ "]"),
           value := .str (jsToString it), group := some group, hidden := false }])
      ++ adobeWsXdmArr rest (idx + 1) fullKey fieldName group depth
termination_by l _ _ _ _ _ => (sizeOf l, 2)

end

/-- The per-event loop of processPostData: reading a property of a
null event throws, a truthy eventType adds a field with its raw value,
and truthy xdm, data, meta and query payloads recurse through
processXdmObject at depth zero. -/
def adobeWsEvents : List Json → Nat → Except Unit (List ParsedField)
  | [], _ => .ok []
  | event :: rest, index => do
    let et ← jsGetField event "eventType"
    let etFields :=
      match et with
      | some v =>
        if jsTruthy v then
          [{ key := "events[" ++ toString index ++ "].eventType",
             field := some ("Event Type (" ++ toString index ++ ")"), value := v,
             group := some "general", hidden := false }]
        else []
      | none => []
    let xdm ← jsGetField event "xdm"
    let xdmFields :=
      match xdm with
      | some v =>
        if jsTruthy v then
          adobeWsProcessXdm v ("events[" ++ toString index ++ "].xdm") 0
        else []
      | none => []
    let dataJ ← jsGetField event "data"
    let dataFields :=
      match dataJ with
      | some v =>
        if jsTruthy v then
          adobeWsProcessXdm v ("events[" ++ toString index ++ "].data") 0
        else []
      | none => []
    let meta ← jsGetField event "meta"
    let metaFields :=
      match meta with
      | some v =>
        if jsTruthy v then
          adobeWsProcessXdm v ("events[" ++ toString index ++ "].meta") 0
        else []
      | none => []
    let query ← jsGetField event "query"
    let queryFields :=
      match query with
      | some v =>
        if jsTruthy v then
          adobeWsProcessXdm v ("events[" ++ toString index ++ "].query") 0
        else []
      | none => []
    let restFields ← adobeWsEvents rest (index + 1)
    return etFields ++ xdmFields ++ dataFields ++ metaFields ++ queryFields ++ restFields

/-- AdobeWebSdkProvider.processPostData: when the events property is
an array, push a configuration id field for a truthy configId and
process every event; property reads on a null body throw. -/
def adobeWsProcessPostData (postDataObj : Json) : Except Unit (List ParsedField) := do
  let ev ← jsGetField postDataObj "events"
  match ev with
  | some (.arr eventData) =>
    let cfg ← jsGetField postDataObj "configId"
    let cfgFields :=
      match cfg with
      | some c =>
        if jsTruthy c then
          [{ key := "configId", field := some "Configuration ID", value := c,
             group := some "general", hidden := false }]
        else []
      | none => []
    let evFields ← adobeWsEvents eventData 0
    return cfgFields ++ evFields
  | _ => return []

/-- The ParseResult identity block of the Adobe Web SDK provider. -/
def adobeWsInfo : ProviderInfo :=
  { name := "Adobe Experience Platform Web SDK", key := "ADOBEWEBSDK", type := "Analytics",
    columns := [("account", "configId"), ("requestType", "requestType")],
    groups := [("general", "General"), ("xdm", "XDM Data"), ("identity", "Identity"),
      ("target", "Target"), ("analytics", "Analytics"), ("other", "Other")] }

/-- AdobeWebSdkProvider.parseUrl: the URL construction sits outside
every try block, so a malformed URL escapes as an exception; body
parse failures inside the try block become an error field; the
exception messages of the engine are modelled by fixed strings. -/
def adobeWsParseUrl (rawUrl postData : String) (st : RegexSt) :
    Except String ParseResult × RegexSt :=
  match jsURL rawUrl with
  | .error msg => (.error msg, st)
  | .ok url =>
    let base :=
      [{ key := "endpoint", field := some "Endpoint", value := .str url.hostname,
         group := some "general", hidden := false },
       { key := "trackingServer", field := some "Tracking Server", value := .str url.hostname,
         group := some "general", hidden := false }]
    let withBody :=
      if postData.isEmpty then base
      else
        match jsonParse postData with
        | none =>
          base ++ [{ key := "error", field := some "Error Parsing Request",
                     value := .str "Unexpected token in JSON", group := some "other",
                     hidden := false }]
        | some obj =>
          match adobeWsProcessPostData obj with
          | .error _ =>
            base ++ [{ key := "error", field := some "Error Parsing Request",
                       value := .str "Cannot read properties of null", group := some "other",
                       hidden := false }]
          | .ok fs => base ++ fs
    let data := withBody ++
      [{ key := "requestType", field := none, value := .str "Interact", group := none,
         hidden := true }]
    (.ok { provider := adobeWsInfo, data := data, error := none }, st)

def adobeWsProvider : Provider :=
  { key := "ADOBEWEBSDK", name := "Adobe Experience Platform Web SDK", typeRaw := "analytics",
    pattern := adobeWsPattern,
    columnMapping := [("account", "configId"), ("requestType", "requestType")],
    groups := [("general", "General"), ("xdm", "XDM Data"), ("identity", "Identity"),
      ("target", "Target"), ("analytics", "Analytics"), ("other", "Other")],
    keys := [],
    hqp := fun n v st => (baseHandleQueryParam [] n v, st),
    custom := fun _ _ st => ([], st),
    parseOverride := some adobeWsParseUrl }

/-! ## Facebook Pixel provider -/

def fbKeys : List (String × CatalogEntry) :=
  [("id", ce "Pixel ID" "general"), ("tid", ce "Metadata Tag ID" "general"),
    ("ev", ce "Event Name" "general"), ("dl", ce "Page URL" "general"),
    ("rl", ce "Referring URL" "general"), ("if", ce "Within iframe" "general"),
    ("ts", ce "Timestamp" "general"), ("sw", ce "Screen Width" "general"),
    ("sh", ce "Screen Height" "general"), ("v", ce "SDK Version" "general"),
    ("r", ce "Random Number" "general"), ("fbp", ce "Facebook Browser Pixel" "general"),
    ("ud", ce "User Data" "general"), ("cdo", ce "Custom Data" "general"),
    ("it", ce "Init Timestamp" "general"), ("a", ce "Deduplication ID" "general"),
    ("requestType", ceH)]

/-- Line terminators that the regex dot does not match. -/
def isLineTerm (c : Char) : Bool :=
  c = '\n' || c = '\r' || c = Char.ofNat 0x2028 || c = Char.ofNat 0x2029

/-- The anchored capture of the FacebookPixel custom-data parameter
regex: the name is cd, an opening bracket, one or more dot-matching
characters and a closing bracket at the end, with the greedy capture
running to the final bracket. -/
def fbCdMatch (name : String) : Option String :=
  let l := name.data
  if "cd[".data.isPrefixOf l && l.getLast? = some ']' && decide (5 ≤ l.length) &&
      (l.drop 3).dropLast.all (fun c => !isLineTerm c) then
    some ⟨(l.drop 3).dropLast⟩
  else none

/-- FacebookPixelProvider.handleQueryParam: the custom-data family
first, then the inherited catalog lookup; a successful test updates
the capture state. -/
def fbHqp (name value : String) (st : RegexSt) : Option ParsedField × RegexSt :=
  match fbCdMatch name with
  | some cap =>
    (some { key := name, field := some ("Custom Data: " ++ cap), value := .str value,
            group := some "customdata", hidden := false }, [cap])
  | none => (baseHandleQueryParam fbKeys name value, st)

/-- The masked user-data keys of FacebookPixelProvider.handleCustom. -/
def fbPiiKeys : List String := ["em", "ph", "fn", "ln", "ge", "db", "ct", "st", "zp"]

/-- One user-data field of the ud branch: personally identifying keys
display a fixed mask, other keys display the raw value. -/
def fbUdEntryField (kv : String × Json) : ParsedField :=
  { key := "ud[" ++ kv.1 ++ "]", field := some ("User Data: " ++ kv.1),
    value := if fbPiiKeys.contains kv.1 then .str "********" else kv.2,
    group := some "general", hidden := false }

/-- The single field pushed when the ud payload cannot be parsed; the
raw payload is replaced by a fixed masked placeholder. -/
def fbUdUnparseable : ParsedField :=
  { key := "ud", field := some "User Data (unparseable)", value := .str "[MASKED]",
    group := some "general", hidden := false }

/-- The ud branch of FacebookPixelProvider.handleCustom: decode and
parse the payload and emit one field per entry, or the masked
placeholder when decoding, parsing or entry enumeration throws. -/
def fbUdBranch (u : String) : List ParsedField :=
  match jsDecodeS u with
  | none => [fbUdUnparseable]
  | some du =>
    match jsonParse du with
    | none => [fbUdUnparseable]
    | some .null => [fbUdUnparseable]
    | some j => (jsEntriesTotal j).map fbUdEntryField

/-- The cd branch of FacebookPixelProvider.handleCustom: decode and
parse the payload and emit one custom-data field per entry with
object-like values serialised, or an unparseable field carrying the
raw payload. -/
def fbCdBranch (c : String) : List ParsedField :=
  match jsDecodeS c with
  | none =>
    [{ key := "cd", field := some "Custom Data (unparseable)", value := .str c,
       group := some "customdata", hidden := false }]
  | some dc =>
    match jsonParse dc with
    | none =>
      [{ key := "cd", field := some "Custom Data (unparseable)", value := .str c,
         group := some "customdata", hidden := false }]
    | some .null =>
      [{ key := "cd", field := some "Custom Data (unparseable)", value := .str c,
         group := some "customdata", hidden := false }]
    | some j =>
      (jsEntriesTotal j).map (fun kv =>
        { key := "cd[" ++ kv.1 ++ "]", field := some ("Custom Data: " ++ kv.1),
          value := if isObjLike kv.2 then .str (jsonStringify kv.2) else kv.2,
          group := some "customdata", hidden := false })

/-- FacebookPixelProvider.handleCustom: the hidden request type from
the ev parameter, then the decoded cd and ud payload families. -/
def fbCustom (url : UrlParts) (params : List (String × String)) (st : RegexSt) :
    List ParsedField × RegexSt :=
  let requestType := jsOrS (uspGet params "ev") "PageView"
  let base :=
    [{ key := "requestType", field := none, value := .str requestType, group := none,
       hidden := true }]
  let cdFields :=
    if uspHas params "cd" then fbCdBranch ((uspGet params "cd").getD "") else []
  let udFields :=
    if uspHas params "ud" then fbUdBranch ((uspGet params "ud").getD "") else []
  (base ++ cdFields ++ udFields, st)

def fbProvider : Provider :=
  { key := "FACEBOOKPIXEL", name := "Facebook Pixel", typeRaw := "marketing",
    pattern := fbPattern,
    columnMapping := [("account", "id"), ("requestType", "requestType")],
    groups := [("general", "General"), ("customdata", "Custom Data")],
    keys := fbKeys,
    hqp := fbHqp,
    custom := fbCustom,
    parseOverride := none }

/-! ## Google Tag Manager provider -/

/-- Left-to-right scan of the suffixes of a subject, returning the
first position where a matcher succeeds: the search behaviour of the
match method of JavaScript strings. -/
def findMapSuffix (f : List Char → Option α) : List Char → Option α
  | [] => f []
  | c :: rest =>
    match f (c :: rest) with
    | some x => some x
    | none => findMapSuffix f rest

/-- Drop a literal head. -/
def dropLit (lit : String) (l : List Char) : Option (List Char) :=
  if lit.data.isPrefixOf l then some (l.drop lit.data.length) else none

/-- The capture of the container-id path regex of GoogleTagManager: a
slash, the gtm- literal, a nonempty word run and the js suffix. -/
def gtmIdMatch (path : String) : Option String :=
  findMapSuffix (fun l =>
    match dropLit "/gtm-" l with
    | none => none
    | some rest =>
      let w := rest.takeWhile isWordCh
      let r := rest.drop w.length
      if w.isEmpty then none
      else if ".js".data.isPrefixOf r then some (⟨w⟩ : String) else none) path.data

def gtmKeys : List (String × CatalogEntry) :=
  [("id", ce "Container ID" "general"), ("l", ce "Data Layer Name" "general"),
    ("cx", ce "Container Experiments" "general"), ("gcs", ce "Consent Mode" "general"),
    ("gtm", ce "GTM Debug" "general"), ("requestType", ceH)]

/-- GoogleTagManagerProvider.handleCustom: container id from the query
or from the script path, a hidden request type, and the script type
classified from the pathname. -/
def gtmCustom (url : UrlParts) (params : List (String × String)) (st : RegexSt) :
    List ParsedField × RegexSt :=
  let st1 := match gtmIdMatch url.pathname with
    | some w => [w]
    | none => st
  let idFields :=
    if uspHas params "id" then
      [{ key := "id", field := some "Container ID",
         value := .str ((uspGet params "id").getD ""), group := some "general",
         hidden := false }]
    else
      match gtmIdMatch url.pathname with
      | some w =>
        [{ key := "id", field := some "Container ID", value := .str ("GTM-" ++ w),
           group := some "general", hidden := false }]
      | none => []
  let scriptType :=
    if sContains url.pathname "/gtag/js" then "gtag.js"
    else if sContains url.pathname "/gtm.js" then "gtm.js"
    else if sContains url.pathname "/gtm-preview" then "GTM Preview"
    else if sContains url.pathname "/ns.html" then "GTM No-Script"
    else "Unknown"
  (idFields ++
    [{ key := "requestType", field := none, value := .str "Container Load", group := none,
       hidden := true },
     { key := "scriptType", field := some "Script Type", value := .str scriptType,
       group := some "general", hidden := false }], st1)

def gtmProvider : Provider :=
  { key := "GOOGLETAGMANAGER", name := "Google Tag Manager", typeRaw := "tagmanager",
    pattern := gtmPattern,
    columnMapping := [("account", "id"), ("requestType", "requestType")],
    groups := [("general", "General")],
    keys := gtmKeys,
    hqp := fun n v st => (baseHandleQueryParam gtmKeys n v, st),
    custom := gtmCustom,
    parseOverride := none }

/-! ## Adobe Launch provider -/

def adobeLaunchKeys : List (String × CatalogEntry) :=
  [("property", ce "Property" "general"), ("environment", ce "Environment" "general"),
    ("company", ce "Company" "general"), ("requestType", ceH)]

/-- First library-path regex of the AdobeLaunch custom hook: slash,
launch-, a nonempty alphanumeric run, an optional development or
staging suffix and the min.js tail; captures the run and the suffix
word, the latter empty when the optional group is absent. -/
def launchShortMatch (path : String) : Option (String × String) :=
  findMapSuffix (fun l =>
    match dropLit "/launch-" l with
    | none => none
    | some rest =>
      let w := rest.takeWhile isAlnumCh
      let r := rest.drop w.length
      if w.isEmpty then none
      else if "-development.min.js".data.isPrefixOf r then some ((⟨w⟩ : String), "development")
      else if "-staging.min.js".data.isPrefixOf r then some ((⟨w⟩ : String), "staging")
      else if ".min.js".data.isPrefixOf r then some ((⟨w⟩ : String), "")
      else none) path.data

/-- Second library-path regex of the AdobeLaunch custom hook: slash,
a segment, slash, a segment, the launch- literal, a nonempty
lower-hex run, the optional suffix and the min.js tail; captures both
segments, the run and the suffix word. -/
def launchLongMatch (path : String) : Option (String × String × String × String) :=
  findMapSuffix (fun l =>
    match l with
    | '/' :: rest1 =>
      let seg1 := rest1.takeWhile nonSlash
      let r1 := rest1.drop seg1.length
      if seg1.isEmpty then none
      else
        (match r1 with
          | '/' :: rest2 =>
            let seg2 := rest2.takeWhile nonSlash
            let r2 := rest2.drop seg2.length
            if seg2.isEmpty then none
            else
              (match dropLit "/launch-" r2 with
                | none => none
                | some rest3 =>
                  let w := rest3.takeWhile isLowHex
                  let r3 := rest3.drop w.length
                  if w.isEmpty then none
                  else if "-development.min.js".data.isPrefixOf r3 then
                    some ((⟨seg1⟩ : String), (⟨seg2⟩ : String), (⟨w⟩ : String), "development")
                  else if "-staging.min.js".data.isPrefixOf r3 then
                    some ((⟨seg1⟩ : String), (⟨seg2⟩ : String), (⟨w⟩ : String), "staging")
                  else if ".min.js".data.isPrefixOf r3 then
                    some ((⟨seg1⟩ : String), (⟨seg2⟩ : String), (⟨w⟩ : String), "")
                  else none)
          | _ => none)
    | _ => none) path.data

/-- AdobeLaunchProvider.handleCustom: a hidden request type, then
property, company and environment decoded from the library path by
the two regexes, the captures read right after each successful test
and the environment falling back to production when its capture is
empty. -/
def adobeLaunchCustom (url : UrlParts) (params : List (String × String)) (st : RegexSt) :
    List ParsedField × RegexSt :=
  let rtField : ParsedField :=
    { key := "requestType", field := none, value := .str "Library Load", group := none,
      hidden := true }
  match launchShortMatch url.pathname with
  | some (prop, envc) =>
    let environment := if envc.isEmpty then "production" else envc
    ([rtField] ++
      (if !prop.isEmpty then
        [{ key := "property", field := some "Property", value := .str prop,
           group := some "general", hidden := false }]
      else []) ++
      [{ key := "environment", field := some "Environment", value := .str environment,
         group := some "general", hidden := false }], [prop, envc])
  | none =>
    match launchLongMatch url.pathname with
    | some (comp, seg2, prop, envc) =>
      let environment := if envc.isEmpty then "production" else envc
      ([rtField,
        { key := "company", field := some "Company", value := .str comp,
          group := some "general", hidden := false }] ++
        (if !prop.isEmpty then
          [{ key := "property", field := some "Property", value := .str prop,
             group := some "general", hidden := false }]
        else []) ++
        [{ key := "environment", field := some "Environment", value := .str environment,
           group := some "general", hidden := false }], [comp, seg2, prop, envc])
    | none =>
      ([rtField,
        { key := "environment", field := some "Environment", value := .str "production",
          group := some "general", hidden := false }], st)

def adobeLaunchProvider : Provider :=
  { key := "ADOBELAUNCH", name := "Adobe Experience Platform Launch", typeRaw := "tagmanager",
    pattern := adobeLaunchPattern,
    columnMapping := [("account", "property"), ("requestType", "requestType")],
    groups := [("general", "General")],
    keys := adobeLaunchKeys,
    hqp := fun n v st => (baseHandleQueryParam adobeLaunchKeys n v, st),
    custom := adobeLaunchCustom,
    parseOverride := none }

/-! ## TikTok provider -/

def tiktokKeys : List (String × CatalogEntry) :=
  [("ttclid", ce "TikTok Click ID" "general"), ("sdkid", ce "Pixel ID" "general"),
    ("event", ce "Event Type" "general"), ("data", ce "Event Data" "general"),
    ("device_id", ce "Device ID" "general"), ("cookie_id", ce "Cookie ID" "general"),
    ("pixel_code", ce "Pixel Code" "general"), ("page_title", ce "Page Title" "general"),
    ("page_url", ce "Page URL" "general"), ("page_referrer", ce "Page Referrer" "general"),
    ("browser_language", ce "Browser Language" "general"),
    ("browser_platform", ce "Browser Platform" "general"),
    ("browser_name", ce "Browser Name" "general"),
    ("browser_version", ce "Browser Version" "general"),
    ("browser_online", ce "Browser Online" "general"),
    ("screen_width", ce "Screen Width" "general"),
    ("screen_height", ce "Screen Height" "general"), ("requestType", ceH)]

/-- TikTokProvider.handleQueryParam: the data payload pretty-printed
when it decodes and parses, dotted property parameters, then the
inherited lookup. -/
def tiktokHqp (name value : String) (st : RegexSt) : Option ParsedField × RegexSt :=
  if name = "data" then
    match jsDecodeS value with
    | none => (baseHandleQueryParam tiktokKeys name value, st)
    | some dv =>
      match jsonParse dv with
      | none => (baseHandleQueryParam tiktokKeys name value, st)
      | some dataJ =>
        (some { key := name, field := some "Event Data (JSON)",
                value := .str (jsonStringifyPretty dataJ), group := some "properties",
                hidden := false }, st)
  else if name.startsWith "properties." then
    let propertyName := ((name.splitOn ".").drop 1).headD ""
    (some { key := name, field := some ("Property: " ++ propertyName), value := .str value,
            group := some "properties", hidden := false }, st)
  else (baseHandleQueryParam tiktokKeys name value, st)

/-- The pixel-id path capture of the TikTok custom hook: the
pixel-track literal then a nonempty run without slash or question
mark. -/
def tiktokPixelIdMatch (path : String) : Option String :=
  findMapSuffix (fun l =>
    match dropLit "/pixel/track/" l with
    | none => none
    | some rest =>
      let w := rest.takeWhile (fun c => !(c = '/' || c = '?'))
      if w.isEmpty then none else some (⟨w⟩ : String)) path.data

/-- The data-payload branch of the TikTok custom hook: event override,
pixel code and property fields; reading properties of a null payload
throws, which the source catches silently. -/
def tiktokDataBranch (dataJ : Json) : Except Unit (Option Json × List ParsedField) := do
  let ev ← jsGetField dataJ "event"
  let pc ← jsGetField dataJ "pixel_code"
  let pcFields :=
    match pc with
    | some v =>
      if jsTruthy v then
        [{ key := "pixel_code", field := some "Pixel Code", value := v,
           group := some "general", hidden := false }]
      else []
    | none => []
  let props ← jsGetField dataJ "properties"
  let propFields :=
    match props with
    | some v =>
      if jsTruthy v then
        (jsEntriesTotal v).map (fun kv =>
          { key := "properties." ++ kv.1, field := some ("Property: " ++ kv.1),
            value := if isObjLike kv.2 then .str (jsonStringify kv.2) else kv.2,
            group := some "properties", hidden := false })
      else []
    | none => []
  let evOverride :=
    match ev with
    | some v => if jsTruthy v then some v else none
    | none => none
  return (evOverride, pcFields ++ propFields)

/-- TikTokProvider.handleCustom: pixel id from the path, decoded data
payload fields, and the hidden request type, which the data payload
may override with its raw event value. -/
def tiktokCustom (url : UrlParts) (params : List (String × String)) (st : RegexSt) :
    List ParsedField × RegexSt :=
  let rt0 : Json := .str (jsOrS (uspGet params "event") "PageView")
  let st1 := match tiktokPixelIdMatch url.pathname with
    | some w => [w]
    | none => st
  let pixelFields :=
    match tiktokPixelIdMatch url.pathname with
    | some w =>
      [{ key := "sdkid", field := some "Pixel ID", value := .str w, group := some "general",
         hidden := false }]
    | none => []
  let (rt, dataFields) :=
    if uspHas params "data" then
      match jsDecodeS ((uspGet params "data").getD "") with
      | none => (rt0, [])
      | some dv =>
        match jsonParse dv with
        | none => (rt0, [])
        | some dataJ =>
          match tiktokDataBranch dataJ with
          | .error _ => (rt0, [])
          | .ok (evOverride, fs) => (evOverride.getD rt0, fs)
    else (rt0, [])
  (pixelFields ++ dataFields ++
    [{ key := "requestType", field := none, value := rt, group := none, hidden := true }], st1)

def tiktokProvider : Provider :=
  { key := "TIKTOK", name := "TikTok Pixel", typeRaw := "marketing",
    pattern := tiktokPattern,
    columnMapping := [("account", "sdkid"), ("requestType", "requestType")],
    groups := [("general", "General"), ("properties", "Event Properties")],
    keys := tiktokKeys,
    hqp := tiktokHqp,
    custom := tiktokCustom,
    parseOverride := none }

/-! ## Pinterest provider -/

def pinterestKeys : List (String × CatalogEntry) :=
  [("tid", ce "Tag ID" "general"), ("event", ce "Event Type" "general"),
    ("ed", ce "Event Data" "general"), ("callback", ce "Callback Function" "general"),
    ("noscript", ce "No Script Tag" "general"), ("np", ce "Page URL" "general"),
    ("pd[em]", ce "Email Address" "general"), ("pd[fn]", ce "First Name" "general"),
    ("pd[ln]", ce "Last Name" "general"), ("pd[ge]", ce "Gender" "general"),
    ("pd[db]", ce "Date of Birth" "general"), ("pd[ph]", ce "Phone Number" "general"),
    ("pd[ct]", ce "City" "general"), ("pd[st]", ce "State" "general"),
    ("pd[zp]", ce "ZIP/Postal Code" "general"), ("pd[country]", ce "Country" "general"),
    ("pd[external_id]", ce "External ID" "general"), ("currency", ce "Currency" "ecommerce"),
    ("value", ce "Value" "ecommerce"), ("order_id", ce "Order ID" "ecommerce"),
    ("order_quantity", ce "Order Quantity" "ecommerce"),
    ("promo_code", ce "Promo Code" "ecommerce"), ("product_id", ce "Product ID" "ecommerce"),
    ("product_name", ce "Product Name" "ecommerce"),
    ("product_category", ce "Product Category" "ecommerce"),
    ("product_brand", ce "Product Brand" "ecommerce"),
    ("product_variant", ce "Product Variant" "ecommerce"),
    ("product_variant_id", ce "Product Variant ID" "ecommerce"),
    ("product_price", ce "Product Price" "ecommerce"),
    ("product_quantity", ce "Product Quantity" "ecommerce"), ("requestType", ceH)]

/-- The unanchored custom-data capture of the Pinterest per-parameter
hook: the custom-data literal, a bracket, a nonempty run without
closing bracket, and the closing bracket. -/
def pinCustomDataMatch (name : String) : Option String :=
  findMapSuffix (fun l =>
    match dropLit "custom_data[" l with
    | none => none
    | some rest =>
      let w := rest.takeWhile (fun c => c != ']')
      let r := rest.drop w.length
      if w.isEmpty then none
      else if "]".data.isPrefixOf r then some (⟨w⟩ : String) else none) name.data

/-- The ed branch and catalog fallback of the Pinterest
per-parameter hook, reached when the custom-data branch falls
through. -/
def pinterestHqpRest (name value : String) (st : RegexSt) : Option ParsedField × RegexSt :=
  if name = "ed" then
    match jsDecodeS value with
    | none => (baseHandleQueryParam pinterestKeys name value, st)
    | some dv =>
      match jsonParse dv with
      | none => (baseHandleQueryParam pinterestKeys name value, st)
      | some dataJ =>
        (some { key := name, field := some "Event Data (JSON)",
                value := .str (jsonStringifyPretty dataJ), group := some "general",
                hidden := false }, st)
  else (baseHandleQueryParam pinterestKeys name value, st)

/-- PinterestProvider.handleQueryParam: the custom-data family, which
falls through when its capture misses, then the pretty-printed ed
payload, then the inherited lookup. -/
def pinterestHqp (name value : String) (st : RegexSt) : Option ParsedField × RegexSt :=
  if name.startsWith "custom_data[" then
    match pinCustomDataMatch name with
    | some cap =>
      (some { key := name, field := some ("Custom: " ++ cap), value := .str value,
              group := some "custom", hidden := false }, [cap])
    | none => pinterestHqpRest name value st
  else pinterestHqpRest name value st

/-- The tag-id path capture of the Pinterest custom hook: the user
literal, a nonempty run without slash, and a closing slash. -/
def pinTagIdMatch (path : String) : Option String :=
  findMapSuffix (fun l =>
    match dropLit "/user/" l with
    | none => none
    | some rest =>
      let w := rest.takeWhile nonSlash
      let r := rest.drop w.length
      if w.isEmpty then none
      else if "/".data.isPrefixOf r then some (⟨w⟩ : String) else none) path.data

/-- The ed-payload branch of the Pinterest custom hook: one field per
entry, catalogued keys keeping their display data and unknown keys
going to the custom-data family; enumerating a null payload throws,
which the source catches silently. -/
def pinEdBranch (dataJ : Json) : List ParsedField :=
  match dataJ with
  | .null => []
  | j =>
    (jsEntriesTotal j).map (fun kv =>
      match catalogGet pinterestKeys kv.1 with
      | some entry =>
        { key := kv.1, field := entry.name,
          value := if isObjLike kv.2 then .str (jsonStringify kv.2) else kv.2,
          group := entry.group, hidden := false }
      | none =>
        { key := "custom_data[" ++ kv.1 ++ "]", field := some ("Custom: " ++ kv.1),
          value := if isObjLike kv.2 then .str (jsonStringify kv.2) else kv.2,
          group := some "custom", hidden := false })

/-- PinterestProvider.handleCustom: tag id recovered from the path
when absent from the query, decoded ed payload fields, and the hidden
request type. -/
def pinterestCustom (url : UrlParts) (params : List (String × String)) (st : RegexSt) :
    List ParsedField × RegexSt :=
  let requestType := jsOrS (uspGet params "event") "PageView"
  let (tidFields, st1) :=
    if !uspHas params "tid" then
      match pinTagIdMatch url.pathname with
      | some w =>
        ([{ key := "tid", field := some "Tag ID", value := .str w, group := some "general",
            hidden := false }], [w])
      | none => ([], st)
    else ([], st)
  let edFields :=
    if uspHas params "ed" then
      match jsDecodeS ((uspGet params "ed").getD "") with
      | none => []
      | some dv =>
        match jsonParse dv with
        | none => []
        | some dataJ => pinEdBranch dataJ
    else []
  (tidFields ++ edFields ++
    [{ key := "requestType", field := none, value := .str requestType, group := none,
       hidden := true }], st1)

def pinterestProvider : Provider :=
  { key := "PINTEREST", name := "Pinterest Tag", typeRaw := "marketing",
    pattern := pinterestPattern,
    columnMapping := [("account", "tid"), ("requestType", "requestType")],
    groups := [("general", "General"), ("ecommerce", "E-commerce"),
      ("custom", "Custom Parameters")],
    keys := pinterestKeys,
    hqp := pinterestHqp,
    custom := pinterestCustom,
    parseOverride := none }

/-! ## LinkedIn provider -/

def linkedinKeys : List (String × CatalogEntry) :=
  [("pid", ce "Partner ID" "general"), ("conversionId", ce "Conversion ID" "conversion"),
    ("fmt", ce "Format" "general"), ("time", ce "Timestamp" "general"),
    ("url", ce "Page URL" "general"), ("e", ce "Event" "general"),
    ("pc", ce "Page Category" "general"), ("pn", ce "Page Name" "general"),
    ("pi", ce "Page ID" "general"), ("pt", ce "Page Title" "general"),
    ("tl", ce "Page Type" "general"), ("v", ce "Version" "general"),
    ("s", ce "Screen Size" "general"), ("td", ce "Time On Page" "general"),
    ("li", ce "LinkedIn Member" "general"), ("li_fat_id", ce "LinkedIn Member ID" "general"),
    ("requestType", ceH)]

/-- Anchored capture of a bracketed word family: the given literal
head, a bracket, a nonempty word run and a closing bracket at the
end. -/
def bracketWordMatch (pre : String) (name : String) : Option String :=
  match dropLit pre name.data with
  | none => none
  | some rest =>
    let w := rest.takeWhile isWordCh
    let r := rest.drop w.length
    if w.isEmpty then none
    else if r = [']'] then some ⟨w⟩ else none

/-- LinkedInProvider.handleQueryParam: the bracketed custom and
conversion families, then the inherited lookup. -/
def linkedinHqp (name value : String) (st : RegexSt) : Option ParsedField × RegexSt :=
  match bracketWordMatch "d[" name with
  | some cap =>
    (some { key := name, field := some ("Custom: " ++ cap), value := .str value,
            group := some "custom", hidden := false }, [cap])
  | none =>
    match bracketWordMatch "cv[" name with
    | some cap =>
      (some { key := name, field := some ("Conversion: " ++ cap), value := .str value,
              group := some "conversion", hidden := false }, [cap])
    | none => (baseHandleQueryParam linkedinKeys name value, st)

/-- The partner-id capture of the LinkedIn custom hook over the raw
search string: a question mark or ampersand, the pid literal with an
equals sign, and a nonempty run without ampersands. -/
def liPartnerIdMatch (search : String) : Option String :=
  findMapSuffix (fun l =>
    match l with
    | c :: rest =>
      if c = '?' || c = '&' then
        match dropLit "pid=" rest with
        | none => none
        | some rest2 =>
          let w := rest2.takeWhile (fun ch => ch != '&')
          if w.isEmpty then none else some (⟨w⟩ : String)
      else none
    | [] => none) search.data

/-- LinkedInProvider.handleCustom: script loads surface the partner id
from the raw search string and reclassify the request type. -/
def linkedinCustom (url : UrlParts) (params : List (String × String)) (st : RegexSt) :
    List ParsedField × RegexSt :=
  let requestType0 := jsOrS (uspGet params "e") "PageView"
  if sContains url.href "insight.min.js" then
    match liPartnerIdMatch url.search with
    | some pidv =>
      ([{ key := "pid", field := some "Partner ID", value := .str pidv,
          group := some "general", hidden := false },
        { key := "requestType", field := none, value := .str "Script Load", group := none,
          hidden := true }], [pidv])
    | none =>
      ([{ key := "requestType", field := none, value := .str "Script Load", group := none,
          hidden := true }], st)
  else
    ([{ key := "requestType", field := none, value := .str requestType0, group := none,
        hidden := true }], st)

def linkedinProvider : Provider :=
  { key := "LINKEDIN", name := "LinkedIn Insight Tag", typeRaw := "marketing",
    pattern := linkedinPattern,
    columnMapping := [("account", "pid"), ("requestType", "requestType")],
    groups := [("general", "General"), ("conversion", "Conversion"),
      ("custom", "Custom Parameters")],
    keys := linkedinKeys,
    hqp := linkedinHqp,
    custom := linkedinCustom,
    parseOverride := none }

/-! ## Twitter provider -/

def twitterKeys : List (String × CatalogEntry) :=
  [("txn_id", ce "Pixel ID" "general"), ("tw_sale_amount", ce "Sale Amount" "ecommerce"),
    ("tw_order_quantity", ce "Order Quantity" "ecommerce"),
    ("tw_iframe_status", ce "iFrame Status" "general"),
    ("tw_document_href", ce "Document URL" "general"), ("tpx_cb", ce "Callback" "general"),
    ("p_id", ce "Product ID" "ecommerce"), ("p_user_id", ce "User ID" "general"),
    ("p_user_latlng", ce "User Location" "general"), ("p_user_email", ce "User Email" "general"),
    ("tw_event", ce "Event Name" "general"),
    ("cd[content_name]", ce "Content Name" "custom"),
    ("cd[content_type]", ce "Content Type" "custom"),
    ("cd[content_ids]", ce "Content IDs" "custom"),
    ("cd[num_items]", ce "Number of Items" "ecommerce"),
    ("cd[email]", ce "Email" "custom"), ("cd[phone]", ce "Phone" "custom"),
    ("cd[address]", ce "Address" "custom"), ("cd[description]", ce "Description" "custom"),
    ("cd[currency]", ce "Currency" "ecommerce"), ("cd[value]", ce "Value" "ecommerce"),
    ("requestType", ceH)]

/-- Anchored capture of the Twitter custom-data family: the cd
literal, a bracket, a nonempty run without closing bracket, and a
closing bracket at the end. -/
def twCdMatch (name : String) : Option String :=
  match dropLit "cd[" name.data with
  | none => none
  | some rest =>
    let w := rest.takeWhile (fun c => c != ']')
    let r := rest.drop w.length
    if w.isEmpty then none
    else if r = [']'] then some ⟨w⟩ else none

/-- TwitterProvider.handleQueryParam: the custom-data family keeping
catalogued display data when present, the pretty-printed events
payload, then the inherited lookup. -/
def twitterHqp (name value : String) (st : RegexSt) : Option ParsedField × RegexSt :=
  match twCdMatch name with
  | some cap =>
    (match catalogGet twitterKeys name with
      | some entry =>
        (some { key := name, field := entry.name, value := .str value, group := entry.group,
                hidden := false }, [cap])
      | none =>
        (some { key := name, field := some ("Custom: " ++ cap), value := .str value,
                group := some "custom", hidden := false }, [cap]))
  | none =>
    if name = "events" then
      match jsDecodeS value with
      | none => (baseHandleQueryParam twitterKeys name value, st)
      | some dv =>
        match jsonParse dv with
        | none => (baseHandleQueryParam twitterKeys name value, st)
        | some eventsJ =>
          (some { key := name, field := some "Events (JSON)",
                  value := .str (jsonStringifyPretty eventsJ), group := some "general",
                  hidden := false }, st)
    else (baseHandleQueryParam twitterKeys name value, st)

/-- TwitterProvider.handleCustom: the hidden request type classified
from the script URL or the tw_event parameter. -/
def twitterCustom (url : UrlParts) (params : List (String × String)) (st : RegexSt) :
    List ParsedField × RegexSt :=
  let requestType :=
    if sContains url.href "uwt.js" then "Script Load"
    else if sContains url.href "widgets.js" then "Widget Script"
    else if uspHas params "tw_event" then (uspGet params "tw_event").getD ""
    else "Pixel"
  ([{ key := "requestType", field := none, value := .str requestType, group := none,
      hidden := true }], st)

def twitterProvider : Provider :=
  { key := "TWITTER", name := "Twitter/X Pixel", typeRaw := "marketing",
    pattern := twitterPattern,
    columnMapping := [("account", "txn_id"), ("requestType", "requestType")],
    groups := [("general", "General"), ("ecommerce", "E-commerce"),
      ("custom", "Custom Parameters")],
    keys := twitterKeys,
    hqp := twitterHqp,
    custom := twitterCustom,
    parseOverride := none }

/-! ## Microsoft Clarity provider -/

def clarityKeys : List (String × CatalogEntry) :=
  [("projectId", ce "Project ID" "general"), ("k", ce "Project ID" "general"),
    ("v", ce "Clarity Version" "general"), ("ua", ce "User Agent" "general"),
    ("url", ce "Page URL" "general"), ("referrer", ce "Referrer" "general"),
    ("c", ce "Clarity Cookie" "session"), ("s", ce "Session ID" "session"),
    ("aid", ce "Application ID" "general"), ("e", ce "Encoded Metrics Data" "metrics"),
    ("sm", ce "Session Metadata" "session"), ("m", ce "Metrics" "metrics"),
    ("se", ce "Session Expiry" "session"), ("ts", ce "Timestamp" "general"),
    ("d", ce "Device Data" "general"), ("ct", ce "Connection Type" "general"),
    ("requestType", ceH)]

/-- MicrosoftClarityProvider.handleQueryParam: the four encoded
payload parameters show only their byte count, the rest go through
the inherited lookup.  The length of the value models the length
property of the JavaScript string, which agrees on the ASCII values
exercised here. -/
def clarityHqp (name value : String) (st : RegexSt) : Option ParsedField × RegexSt :=
  if name = "e" || name = "d" || name = "m" || name = "sm" then
    let entry := catalogGet clarityKeys name
    (some
      { key := name,
        field := match entry with | some e => e.name | none => some name,
        value := .str ("[" ++ toString value.length ++ " bytes of encoded data]"),
        group := match entry with | some e => e.group | none => some "general",
        hidden := false }, st)
  else (baseHandleQueryParam clarityKeys name value, st)

/-- The project-id path capture of the Clarity custom hook. -/
def clarityProjectIdMatch (path : String) : Option String :=
  findMapSuffix (fun l =>
    match dropLit "/tag/" l with
    | none => none
    | some rest =>
      let w := rest.takeWhile (fun c => !(c = '/' || c = '?'))
      if w.isEmpty then none else some (⟨w⟩ : String)) path.data

/-- MicrosoftClarityProvider.handleCustom: the request type classified
from the pathname, with the project id recovered from script-load
paths. -/
def clarityCustom (url : UrlParts) (params : List (String × String)) (st : RegexSt) :
    List ParsedField × RegexSt :=
  if sContains url.pathname "/tag/" then
    match clarityProjectIdMatch url.pathname with
    | some w =>
      ([{ key := "projectId", field := some "Project ID", value := .str w,
          group := some "general", hidden := false },
        { key := "requestType", field := none, value := .str "Script Load", group := none,
          hidden := true }], [w])
    | none =>
      ([{ key := "requestType", field := none, value := .str "Script Load", group := none,
          hidden := true }], st)
  else
    let requestType :=
      if sContains url.pathname "/collect" then "Data Collection"
      else if sContains url.pathname "/eventlogger" then "Event Logging"
      else "Data Collection"
    ([{ key := "requestType", field := none, value := .str requestType, group := none,
        hidden := true }], st)

def clarityProvider : Provider :=
  { key := "MICROSOFTCLARITY", name := "Microsoft Clarity", typeRaw := "analytics",
    pattern := clarityPattern,
    columnMapping := [("account", "projectId"), ("requestType", "requestType")],
    groups := [("general", "General"), ("session", "Session Data"), ("metrics", "Metrics")],
    keys := clarityKeys,
    hqp := clarityHqp,
    custom := clarityCustom,
    parseOverride := none }

/-! ## The registry of the repository -/

/-- The providers in the registration order of the provider
registration module.  The import target of the third registration is
the Adobe Web SDK provider class, whose file is the one Adobe
analytics provider implementation present in the repository
snapshot. -/
def fullProviders : List Provider :=
  [ga4Provider, gaProvider, adobeWsProvider, fbProvider, gtmProvider, adobeLaunchProvider,
    tiktokProvider, pinterestProvider, linkedinProvider, twitterProvider, clarityProvider]

/-- The singleton registry after initializeProviders has run. -/
def fullRegistry : Registry := mkRegistry fullProviders

/-! ## Auxiliary definitions used by the statements below -/

/-- A JSON value that is neither an array nor an object: the values
the flattening emits as leaves. -/
def Json.isScalar : Json → Bool
  | .arr _ => false
  | .obj _ => false
  | _ => true

/-- Nested single-key objects of the given depth around a numeric
leaf, giving bodies of exactly that JSON nesting depth. -/
def nestJson : Nat → Json
  | 0 => .num 1
  | n + 1 => .obj [("a", nestJson n)]

/-- Output-state blindness of a per-parameter hook: the produced field
never depends on the incoming capture state. -/
def HqpBlind (p : Provider) : Prop :=
  ∀ n v s1 s2, (p.hqp n v s1).1 = (p.hqp n v s2).1

/-- Output-state blindness of a custom hook. -/
def CustomBlind (p : Provider) : Prop :=
  ∀ u ps s1 s2, (p.custom u ps s1).1 = (p.custom u ps s2).1

/-- Output-state blindness of a parseUrl override, holding trivially
when there is none. -/
def OverrideBlind (p : Provider) : Prop :=
  ∀ f, p.parseOverride = some f → ∀ u pd s1 s2, (f u pd s1).1 = (f u pd s2).1

/-- All three blindness properties. -/
def ProviderBlind (p : Provider) : Prop :=
  HqpBlind p ∧ CustomBlind p ∧ OverrideBlind p


/-- Round trip of a valid code point through Char.ofNat. -/
theorem toNat_ofNat_valid (n : Nat) (h : n.isValidChar) : (Char.ofNat n).toNat = n := by
  rw [Char.ofNat, dif_pos h]
  rfl

theorem toLower_toNat_of_upper (c : Char) (h : 65 ≤ c.toNat ∧ c.toNat ≤ 90) :
    (Char.toLower c).toNat = c.toNat + 32 := by
  have hv : Nat.isValidChar (c.toNat + 32) := Or.inl (by omega)
  rw [Char.toLower]
  simp only [ge_iff_le, if_pos (show c.toNat ≥ 65 ∧ c.toNat ≤ 90 from ⟨h.1, h.2⟩)]
  exact toNat_ofNat_valid _ hv

theorem toLower_eq_self (c : Char) (h : ¬ (65 ≤ c.toNat ∧ c.toNat ≤ 90)) :
    Char.toLower c = c := by
  rw [Char.toLower]
  simp only [ge_iff_le, if_neg h]

theorem char_eq_iff_toNat (a b : Char) : a = b ↔ a.toNat = b.toNat := by
  constructor
  · intro h
    rw [h]
  · intro h
    apply Char.ext
    exact UInt32.toNat.inj h

theorem isPrefixOf_map_toLower {cs s : List Char} (h : cs.isPrefixOf s = true) :
    (lowerL cs).isPrefixOf (lowerL s) = true := by
  rw [List.isPrefixOf_iff_prefix] at h ⊢
  exact h.map Char.toLower

theorem starCls_map_toLower (p : Char → Bool)
    (hp : ∀ c, p c = true → p (Char.toLower c) = true) :
    ∀ (s : List Char) (k k2 : List Char → Bool),
      (∀ t, k t = true → k2 (lowerL t) = true) →
      starCls p s k = true → starCls p (lowerL s) k2 = true := by
  intro s
  induction s with
  | nil =>
    intro k k2 hk h
    rw [starCls] at h
    show starCls p [] k2 = true
    rw [starCls]
    exact hk [] h
  | cons c rest ih =>
    intro k k2 hk h
    rw [starCls] at h
    show starCls p (Char.toLower c :: lowerL rest) k2 = true
    rw [starCls]
    simp only [Bool.or_eq_true, Bool.and_eq_true] at h ⊢
    rcases h with h | ⟨hc, hrest⟩
    · exact Or.inl (hk _ h)
    · exact Or.inr ⟨hp c hc, ih _ _ hk hrest⟩

theorem mtch_map_toLower (r : Rx) (hr : RxStable r) :
    ∀ (s : List Char) (k k2 : List Char → Bool),
      (∀ t, k t = true → k2 (lowerL t) = true) →
      mtch r s k = true → mtch r (lowerL s) k2 = true := by
  induction r with
  | lit cs =>
    intro s k k2 hk h
    rw [mtch] at h ⊢
    by_cases hp : cs.isPrefixOf s = true
    · rw [if_pos hp] at h
      have hp2 : cs.isPrefixOf (lowerL s) = true := by
        have := isPrefixOf_map_toLower hp
        rwa [hr] at this
      rw [if_pos hp2]
      have hdrop : (lowerL s).drop cs.length = lowerL (s.drop cs.length) := by
        simp [lowerL, List.map_drop]
      rw [hdrop]
      exact hk _ h
    · rw [if_neg hp] at h
      exact absurd h (by simp)
  | alt a b iha ihb =>
    intro s k k2 hk h
    rw [mtch] at h ⊢
    simp only [Bool.or_eq_true] at h ⊢
    rcases h with h | h
    · exact Or.inl (iha hr.1 s k k2 hk h)
    · exact Or.inr (ihb hr.2 s k k2 hk h)
  | seq a b iha ihb =>
    intro s k k2 hk h
    rw [mtch] at h ⊢
    exact iha hr.1 s _ _ (fun t ht => ihb hr.2 t k k2 hk ht) h
  | opt a iha =>
    intro s k k2 hk h
    rw [mtch] at h ⊢
    simp only [Bool.or_eq_true] at h ⊢
    rcases h with h | h
    · exact Or.inl (iha hr s k k2 hk h)
    · exact Or.inr (hk s h)
  | plusCls p =>
    intro s k k2 hk h
    cases s with
    | nil =>
      rw [mtch] at h
      exact absurd h (by simp)
    | cons c rest =>
      rw [mtch] at h
      show mtch (.plusCls p) (Char.toLower c :: lowerL rest) k2 = true
      rw [mtch]
      simp only [Bool.and_eq_true] at h ⊢
      exact ⟨hr c h.1, starCls_map_toLower p hr rest k k2 hk h.2⟩
  | eos =>
    intro s k k2 hk h
    rw [mtch] at h ⊢
    simp only [Bool.and_eq_true, List.isEmpty_iff] at h ⊢
    rcases h with ⟨h1, h2⟩
    subst h1
    exact ⟨rfl, hk [] h2⟩

theorem tails_map_toLower (l : List Char) :
    (lowerL l).tails = l.tails.map lowerL := by
  induction l with
  | nil => rfl
  | cons a l ih =>
    show ((a :: l).map Char.toLower).tails = _
    rw [List.map_cons, List.tails_cons, List.tails_cons, List.map_cons]
    rw [← List.map_cons Char.toLower a l]
    exact congrArg _ ih

/-- A case-sensitive match of a stable pattern survives lowering the
subject string; this is the sound direction of the relation between a
provider pattern and its case-insensitive copy inside the combined
registry pattern. -/
theorem rxTest_lower_of_rxTest (r : Rx) (hr : RxStable r) (s : String)
    (h : rxTest r s = true) : rxTest r (lowerS s) = true := by
  rw [rxTest] at h ⊢
  simp only [List.any_eq_true] at h ⊢
  rcases h with ⟨t, ht, hm⟩
  refine ⟨lowerL t, ?_, ?_⟩
  · show lowerL t ∈ (lowerS s).data.tails
    have : (lowerS s).data = lowerL s.data := rfl
    rw [this, tails_map_toLower]
    exact List.mem_map_of_mem lowerL ht
  · exact mtch_map_toLower r hr t _ _ (fun _ _ => rfl) hm

theorem isLowAl_stable (c : Char) (h : isLowAl c = true) :
    isLowAl (Char.toLower c) = true := by
  simp only [isLowAl, Bool.and_eq_true, decide_eq_true_eq] at h
  rw [toLower_eq_self c (by omega)]
  simp only [isLowAl, Bool.and_eq_true, decide_eq_true_eq]
  omega

theorem isAlnumCh_stable (c : Char) (h : isAlnumCh c = true) :
    isAlnumCh (Char.toLower c) = true := by
  simp only [isAlnumCh, Bool.or_eq_true, Bool.and_eq_true, decide_eq_true_eq] at h
  by_cases hu : 65 ≤ c.toNat ∧ c.toNat ≤ 90
  · have ht := toLower_toNat_of_upper c hu
    simp only [isAlnumCh, Bool.or_eq_true, Bool.and_eq_true, decide_eq_true_eq, ht]
    omega
  · rw [toLower_eq_self c hu]
    simp only [isAlnumCh, Bool.or_eq_true, Bool.and_eq_true, decide_eq_true_eq]
    omega

theorem isLowHex_stable (c : Char) (h : isLowHex c = true) :
    isLowHex (Char.toLower c) = true := by
  simp only [isLowHex, Bool.or_eq_true, Bool.and_eq_true, decide_eq_true_eq] at h
  rw [toLower_eq_self c (by omega)]
  simp only [isLowHex, Bool.or_eq_true, Bool.and_eq_true, decide_eq_true_eq]
  omega

theorem nonSlash_stable (c : Char) (h : nonSlash c = true) :
    nonSlash (Char.toLower c) = true := by
  simp only [nonSlash, bne_iff_ne, ne_eq] at h
  by_cases hu : 65 ≤ c.toNat ∧ c.toNat ≤ 90
  · have ht := toLower_toNat_of_upper c hu
    simp only [nonSlash, bne_iff_ne, ne_eq, ht]
    omega
  · rw [toLower_eq_self c hu]
    simp only [nonSlash, bne_iff_ne, ne_eq]
    exact h

theorem ga4Pattern_stable : RxStable ga4Pattern := by
  simp only [ga4Pattern, RxStable, rlit]
  decide

theorem gaPattern_stable : RxStable gaPattern := by
  simp only [gaPattern, gaCollectTail, RxStable, rlit]
  repeat' apply And.intro
  all_goals decide

theorem adobeWsPattern_stable : RxStable adobeWsPattern := by
  simp only [adobeWsPattern, RxStable, rlit]
  repeat' apply And.intro
  all_goals decide

theorem fbPattern_stable : RxStable fbPattern := by
  simp only [fbPattern, RxStable, rlit]
  repeat' apply And.intro
  all_goals decide

theorem gtmPattern_stable : RxStable gtmPattern := by
  simp only [gtmPattern, RxStable, rlit]
  repeat' apply And.intro
  all_goals first
  | decide
  | exact fun c => isLowAl_stable c

theorem adobeLaunchPattern_stable : RxStable adobeLaunchPattern := by
  simp only [adobeLaunchPattern, RxStable, rlit]
  repeat' apply And.intro
  all_goals first
  | decide
  | exact fun c => isAlnumCh_stable c
  | exact fun c => isLowHex_stable c
  | exact fun c => nonSlash_stable c

theorem tiktokPattern_stable : RxStable tiktokPattern := by
  simp only [tiktokPattern, RxStable, rlit]
  repeat' apply And.intro
  all_goals decide

theorem pinterestPattern_stable : RxStable pinterestPattern := by
  simp only [pinterestPattern, RxStable, rlit]
  repeat' apply And.intro
  all_goals decide

theorem linkedinPattern_stable : RxStable linkedinPattern := by
  simp only [linkedinPattern, RxStable, rlit]
  repeat' apply And.intro
  all_goals decide

theorem twitterPattern_stable : RxStable twitterPattern := by
  simp only [twitterPattern, RxStable, rlit]
  repeat' apply And.intro
  all_goals decide

theorem clarityPattern_stable : RxStable clarityPattern := by
  simp only [clarityPattern, RxStable, rlit]
  repeat' apply And.intro
  all_goals decide

theorem basePattern_stable : RxStable basePattern := by
  simp only [basePattern, RxStable, rlit]
  decide

/-! ## Helper lemmas about the registry structure -/

theorem foldl_addProvider_patterns (ps : List Provider) :
    ∀ r : Registry, (ps.foldl Registry.addProvider r).patterns =
      r.patterns ++ ps.map (fun p => p.pattern) := by
  induction ps with
  | nil => intro r; simp
  | cons p ps ih =>
    intro r
    rw [List.foldl_cons, ih, List.map_cons]
    show (Registry.addProvider r p).patterns ++ _ = _
    rw [Registry.addProvider]
    simp

theorem mkRegistry_patterns (ps : List Provider) :
    (mkRegistry ps).patterns = ps.map (fun p => p.pattern) := by
  rw [mkRegistry, foldl_addProvider_patterns]
  rfl

theorem any_map_patterns (ps : List Provider) (url : String) :
    (ps.map (fun p => p.pattern)).any (fun rx => rxTest rx (lowerS url)) =
      ps.any (fun p => p.ciTest url) := by
  induction ps with
  | nil => rfl
  | cons p ps ih => simp only [List.map_cons, List.any_cons, ih, Provider.ciTest]

/-- Characterisation of the combined pattern: the empty registry
matches everything through the empty RegExp of the constructor, and
any nonempty registry matches exactly when some pushed pattern
matches the lowered URL. -/
theorem checkUrl_mkRegistry (ps : List Provider) (url : String) :
    (mkRegistry ps).checkUrl url =
      (ps.isEmpty || ps.any (fun p => p.ciTest url)) := by
  rw [Registry.checkUrl, mkRegistry_patterns]
  cases ps with
  | nil => simp
  | cons p ps =>
    simp only [List.map_cons, List.isEmpty_cons, List.any_cons]
    rw [if_neg (by simp)]
    have := any_map_patterns ps url
    simp only [List.any_cons, this, Bool.false_or, Provider.ciTest]

theorem foldl_addProvider_providers (ps : List Provider) :
    ∀ r : Registry,
      (∀ p ∈ ps, ∀ q ∈ r.providers, q.key ≠ p.key) →
      (ps.map (fun p => p.key)).Nodup →
      (ps.foldl Registry.addProvider r).providers = r.providers ++ ps := by
  induction ps with
  | nil => intro r _ _; simp
  | cons p ps ih =>
    intro r hfresh hnodup
    rw [List.foldl_cons]
    have hnew : r.providers.any (fun q => q.key = p.key) = false := by
      rw [List.any_eq_false]
      intro q hq
      simp only [decide_eq_true_eq]
      exact fun he => hfresh p (by simp) q hq he
    have hstep : (Registry.addProvider r p).providers = r.providers ++ [p] := by
      rw [Registry.addProvider]
      simp [hnew]
    rw [ih (Registry.addProvider r p) ?_ ?_]
    · rw [hstep, List.append_assoc]
      rfl
    · intro q hq q2 hq2
      rw [hstep] at hq2
      rcases List.mem_append.mp hq2 with h2 | h2
      · exact hfresh q (by simp [hq]) q2 h2
      · have : q2 = p := by simpa using h2
        subst this
        rw [List.map_cons, List.nodup_cons] at hnodup
        intro he
        exact hnodup.1 (he ▸ List.mem_map_of_mem (fun x => x.key) hq)
    · rw [List.map_cons, List.nodup_cons] at hnodup
      exact hnodup.2

/-- With the provider keys of the added sequence distinct, the
provider map holds exactly the added providers in registration
order. -/
theorem mkRegistry_providers (ps : List Provider)
    (hnodup : (ps.map (fun p => p.key)).Nodup) :
    (mkRegistry ps).providers = ps := by
  rw [mkRegistry, foldl_addProvider_providers ps emptyRegistry (by intro p _ q hq; cases hq) hnodup]
  rfl

/-- The lookup loop of getProviderForUrl computes the first match
with the default fallback. -/
theorem gpfLoop_eq_find (ps : List Provider) (url : String) :
    gpfLoop ps url = (ps.find? (fun p => p.checkUrl url)).getD defaultProvider := by
  induction ps with
  | nil => rfl
  | cons p ps ih =>
    rw [gpfLoop, List.find?]
    by_cases h : p.checkUrl url = true
    · simp [h]
    · simp only [Bool.not_eq_true] at h
      simp [h, ih]

/-- The push loop of getMatchingProviders computes the filter of the
provider list. -/
theorem gmpLoop_eq_filter (ps : List Provider) (url : String) :
    gmpLoop ps url = ps.filter (fun p => p.checkUrl url) := by
  induction ps with
  | nil => rfl
  | cons p ps ih =>
    rw [gmpLoop, List.filter_cons]
    by_cases h : p.checkUrl url = true
    · simp [h, ih]
    · simp only [Bool.not_eq_true] at h
      simp [h, ih]

/-- Every pattern of the repository registry is case-stable. -/
theorem fullProviders_stable : ∀ p ∈ fullProviders, RxStable p.pattern := by
  intro p hp
  simp only [fullProviders, List.mem_cons, List.not_mem_nil, or_false] at hp
  rcases hp with rfl | rfl | rfl | rfl | rfl | rfl | rfl | rfl | rfl | rfl | rfl
  · exact ga4Pattern_stable
  · exact gaPattern_stable
  · exact adobeWsPattern_stable
  · exact fbPattern_stable
  · exact gtmPattern_stable
  · exact adobeLaunchPattern_stable
  · exact tiktokPattern_stable
  · exact pinterestPattern_stable
  · exact linkedinPattern_stable
  · exact twitterPattern_stable
  · exact clarityPattern_stable

/-- A case-sensitive provider match implies a match inside the
case-insensitive combined pattern, for the stable repository
patterns. -/
theorem ciTest_of_checkUrl (p : Provider) (hp : RxStable p.pattern) (url : String)
    (h : p.checkUrl url = true) : p.ciTest url = true :=
  rxTest_lower_of_rxTest p.pattern hp url h

/-! ## State blindness of the providers

Every read of the global capture state in the source sits directly
after the successful test that set it, so the produced output never
depends on the state a parse starts from. -/

theorem ga4_blind : ProviderBlind ga4Provider :=
  ⟨fun _ _ _ _ => rfl, fun _ _ _ _ => rfl, fun _ h => by cases h⟩

theorem ga_blind : ProviderBlind gaProvider := by
  refine ⟨?_, fun _ _ _ _ => rfl, fun _ h => by cases h⟩
  intro n v s1 s2
  show (gaHqp n v s1).1 = (gaHqp n v s2).1
  unfold gaHqp
  cases gaNumTail "cg" n
  case some => rfl
  case none =>
  cases gaNumTail "cd" n
  case some => rfl
  case none =>
  cases gaNumTail "cm" n
  case some => rfl
  case none =>
  cases gaNumTwoLetters "promo" n
  case some => rfl
  case none =>
  cases gaNumTwoLetters "pr" n
  case some => rfl
  case none =>
  cases gaNumCdCmNum "pr" n
  case some => rfl
  case none =>
  cases gaIlNm n
  case some => rfl
  case none =>
  cases gaIlPiCdCm n
  case some => rfl
  case none =>
  cases gaIlPiTwoLetters n
  case some => rfl
  case none => rfl

theorem adobeWs_blind : ProviderBlind adobeWsProvider := by
  refine ⟨fun _ _ _ _ => rfl, fun _ _ _ _ => rfl, ?_⟩
  intro f h u pd s1 s2
  have hf : f = adobeWsParseUrl := by
    have := h
    simp only [adobeWsProvider, Option.some.injEq] at this
    exact this.symm
  subst hf
  show (adobeWsParseUrl u pd s1).1 = (adobeWsParseUrl u pd s2).1
  unfold adobeWsParseUrl
  cases jsURL u <;> rfl

theorem fb_blind : ProviderBlind fbProvider := by
  refine ⟨?_, fun _ _ _ _ => rfl, fun _ h => by cases h⟩
  intro n v s1 s2
  show (fbHqp n v s1).1 = (fbHqp n v s2).1
  unfold fbHqp
  cases fbCdMatch n <;> rfl

theorem gtm_blind : ProviderBlind gtmProvider :=
  ⟨fun _ _ _ _ => rfl, fun _ _ _ _ => rfl, fun _ h => by cases h⟩

theorem adobeLaunch_blind : ProviderBlind adobeLaunchProvider := by
  refine ⟨fun _ _ _ _ => rfl, ?_, fun _ h => by cases h⟩
  intro u ps s1 s2
  show (adobeLaunchCustom u ps s1).1 = (adobeLaunchCustom u ps s2).1
  unfold adobeLaunchCustom
  cases launchShortMatch u.pathname
  case some => rfl
  case none =>
  cases launchLongMatch u.pathname <;> rfl

theorem tiktok_blind : ProviderBlind tiktokProvider := by
  refine ⟨?_, fun _ _ _ _ => rfl, fun _ h => by cases h⟩
  intro n v s1 s2
  show (tiktokHqp n v s1).1 = (tiktokHqp n v s2).1
  unfold tiktokHqp
  repeat' split
  all_goals rfl

theorem pinterestHqpRest_blind (n v : String) (s1 s2 : RegexSt) :
    (pinterestHqpRest n v s1).1 = (pinterestHqpRest n v s2).1 := by
  unfold pinterestHqpRest
  repeat' split
  all_goals rfl

theorem pinterest_blind : ProviderBlind pinterestProvider := by
  refine ⟨?_, ?_, fun _ h => by cases h⟩
  · intro n v s1 s2
    show (pinterestHqp n v s1).1 = (pinterestHqp n v s2).1
    unfold pinterestHqp
    by_cases h1 : n.startsWith "custom_data[" = true
    · simp only [h1, if_pos]
      cases pinCustomDataMatch n with
      | some cap => rfl
      | none => exact pinterestHqpRest_blind n v s1 s2
    · simp only [Bool.not_eq_true] at h1
      simp only [h1, Bool.false_eq_true, if_false]
      exact pinterestHqpRest_blind n v s1 s2
  · intro u ps s1 s2
    show (pinterestCustom u ps s1).1 = (pinterestCustom u ps s2).1
    unfold pinterestCustom
    by_cases h1 : uspHas ps "tid" = true
    · simp [h1]
    · simp only [Bool.not_eq_true] at h1
      cases pinTagIdMatch u.pathname <;> simp [h1]

theorem linkedin_blind : ProviderBlind linkedinProvider := by
  refine ⟨?_, ?_, fun _ h => by cases h⟩
  · intro n v s1 s2
    show (linkedinHqp n v s1).1 = (linkedinHqp n v s2).1
    unfold linkedinHqp
    cases bracketWordMatch "d[" n
    case some => rfl
    case none => cases bracketWordMatch "cv[" n <;> rfl
  · intro u ps s1 s2
    show (linkedinCustom u ps s1).1 = (linkedinCustom u ps s2).1
    unfold linkedinCustom
    by_cases h1 : sContains u.href "insight.min.js" = true
    · simp only [h1, if_pos]
      cases liPartnerIdMatch u.search with
      | some w => rfl
      | none => rfl
    · simp only [Bool.not_eq_true] at h1
      simp [h1]

theorem twitter_blind : ProviderBlind twitterProvider := by
  refine ⟨?_, fun _ _ _ _ => rfl, fun _ h => by cases h⟩
  intro n v s1 s2
  show (twitterHqp n v s1).1 = (twitterHqp n v s2).1
  unfold twitterHqp
  repeat' split
  all_goals rfl

theorem clarity_blind : ProviderBlind clarityProvider := by
  refine ⟨?_, ?_, fun _ h => by cases h⟩
  · intro n v s1 s2
    show (clarityHqp n v s1).1 = (clarityHqp n v s2).1
    unfold clarityHqp
    by_cases h1 : (n = "e" || n = "d" || n = "m" || n = "sm") = true
    · simp [h1]
    · simp only [Bool.not_eq_true] at h1
      simp [h1]
  · intro u ps s1 s2
    show (clarityCustom u ps s1).1 = (clarityCustom u ps s2).1
    unfold clarityCustom
    by_cases h1 : sContains u.pathname "/tag/" = true
    · simp only [h1, if_pos]
      cases clarityProjectIdMatch u.pathname with
      | some w => rfl
      | none => rfl
    · simp only [Bool.not_eq_true] at h1
      simp [h1]

theorem default_blind : ProviderBlind defaultProvider :=
  ⟨fun _ _ _ _ => rfl, fun _ _ _ _ => rfl, fun _ h => by cases h⟩

theorem fullProviders_blind : ∀ p ∈ fullProviders, ProviderBlind p := by
  intro p hp
  simp only [fullProviders, List.mem_cons, List.not_mem_nil, or_false] at hp
  rcases hp with rfl | rfl | rfl | rfl | rfl | rfl | rfl | rfl | rfl | rfl | rfl
  · exact ga4_blind
  · exact ga_blind
  · exact adobeWs_blind
  · exact fb_blind
  · exact gtm_blind
  · exact adobeLaunch_blind
  · exact tiktok_blind
  · exact pinterest_blind
  · exact linkedin_blind
  · exact twitter_blind
  · exact clarity_blind

/-! ## State independence of the parse pipeline -/

theorem hqpLoop_fst_blind (p : Provider) (hb : HqpBlind p) :
    ∀ (params : List (String × String)) (s1 s2 : RegexSt),
      (hqpLoop p params s1).1 = (hqpLoop p params s2).1 := by
  intro params
  induction params with
  | nil => intro s1 s2; rfl
  | cons kv rest ih =>
    intro s1 s2
    show ((p.hqp kv.1 kv.2 s1).1.toList ++ (hqpLoop p rest (p.hqp kv.1 kv.2 s1).2).1, _).1 =
      ((p.hqp kv.1 kv.2 s2).1.toList ++ (hqpLoop p rest (p.hqp kv.1 kv.2 s2).2).1, _).1
    simp only
    rw [hb kv.1 kv.2 s1 s2, ih (p.hqp kv.1 kv.2 s1).2 (p.hqp kv.1 kv.2 s2).2]

theorem baseParseUrl_fst_blind (p : Provider) (hb : HqpBlind p) (hc : CustomBlind p)
    (rawUrl postData : String) (s1 s2 : RegexSt) :
    (baseParseUrl p rawUrl postData s1).1 = (baseParseUrl p rawUrl postData s2).1 := by
  unfold baseParseUrl
  cases jsURL rawUrl with
  | error msg => rfl
  | ok url =>
    simp only
    rw [hqpLoop_fst_blind p hb _ s1 s2, hc url _ (hqpLoop p _ s1).2 (hqpLoop p _ s2).2]

theorem providerParseUrl_fst_blind (p : Provider) (hp : ProviderBlind p)
    (rawUrl postData : String) (s1 s2 : RegexSt) :
    (p.parseUrl rawUrl postData s1).1 = (p.parseUrl rawUrl postData s2).1 := by
  unfold Provider.parseUrl
  cases ho : p.parseOverride with
  | some f => exact hp.2.2 f ho rawUrl postData s1 s2
  | none =>
    simp only
    rw [baseParseUrl_fst_blind p hp.1 hp.2.1 rawUrl postData s1 s2]

theorem gpfLoop_mem_or_default (ps : List Provider) (url : String) :
    gpfLoop ps url ∈ ps ∨ gpfLoop ps url = defaultProvider := by
  induction ps with
  | nil => exact Or.inr rfl
  | cons p rest ih =>
    rw [gpfLoop]
    by_cases h : p.checkUrl url = true
    · simp [h]
    · simp only [Bool.not_eq_true] at h
      simp only [h, Bool.false_eq_true, if_false]
      rcases ih with hm | hd
      · exact Or.inl (List.mem_cons_of_mem p hm)
      · exact Or.inr hd

/-- The parse of the repository registry never depends on the capture
state it starts from. -/
theorem registryParse_fst_blind (url postData : String) (s1 s2 : RegexSt) :
    (fullRegistry.parseUrl url postData s1).1 = (fullRegistry.parseUrl url postData s2).1 := by
  unfold Registry.parseUrl
  have hsel : ProviderBlind (fullRegistry.getProviderForUrl url) := by
    rcases gpfLoop_mem_or_default fullRegistry.providers url with hm | hd
    · have hfull : fullRegistry.providers = fullProviders := rfl
      rw [Registry.getProviderForUrl]
      exact fullProviders_blind _ (by rw [← hfull]; exact hm)
    · rw [Registry.getProviderForUrl, hd]
      exact default_blind
  exact providerParseUrl_fst_blind _ hsel url postData s1 s2

/-! ## The flattening characterisation lemmas -/

theorem jsonFlattenArr_eq_enumFrom (xs : List Json) :
    ∀ (i : Nat) (prop : String),
      jsonFlattenArr xs i prop =
        (xs.enumFrom i).flatMap
          (fun iv => jsonFlattenVal iv.2 (prop ++ "[" ++ toString iv.1 ++ "]")) := by
  induction xs with
  | nil => intro i prop; rfl
  | cons x xs ih =>
    intro i prop
    rw [jsonFlattenArr, List.enumFrom, List.flatMap_cons, ih]

theorem jsonFlattenObj_eq_flatMap (kvs : List (String × Json)) :
    ∀ prop : String,
      jsonFlattenObj kvs prop =
        kvs.flatMap
          (fun kv => jsonFlattenVal kv.2 (if prop.isEmpty then kv.1 else prop ++ "." ++ kv.1)) := by
  induction kvs with
  | nil => intro prop; rfl
  | cons kv kvs ih =>
    intro prop
    rw [jsonFlattenObj]
    rw [List.flatMap_cons, ih]

/-! ## The default-provider fallback of the registry parse -/

theorem hqpLoop_default (params : List (String × String))
    (hproto : ∀ kv ∈ params, protoEntry kv.1 = none) :
    ∀ st : RegexSt,
      hqpLoop defaultProvider params st =
        (params.map (fun kv =>
          ({ key := kv.1, field := some kv.1, value := .str kv.2, group := some "other",
             hidden := false } : ParsedField)), st) := by
  induction params with
  | nil => intro st; rfl
  | cons kv rest ih =>
    intro st
    have hhd : protoEntry kv.1 = none := hproto kv (by simp)
    have hfield : baseHandleQueryParam [] kv.1 kv.2 =
        some { key := kv.1, field := some kv.1, value := .str kv.2, group := some "other",
               hidden := false } := by
      unfold baseHandleQueryParam catalogGet
      simp [hhd, jsOrS]
    rw [hqpLoop]
    show ((defaultProvider.hqp kv.1 kv.2 st).1.toList ++
        (hqpLoop defaultProvider rest (defaultProvider.hqp kv.1 kv.2 st).2).1,
      (hqpLoop defaultProvider rest (defaultProvider.hqp kv.1 kv.2 st).2).2) = _
    have hstep : defaultProvider.hqp kv.1 kv.2 st =
        (some { key := kv.1, field := some kv.1, value := .str kv.2, group := some "other",
                hidden := false }, st) := by
      show (baseHandleQueryParam [] kv.1 kv.2, st) = _
      rw [hfield]
    rw [hstep, ih (fun kv2 h2 => hproto kv2 (by simp [h2]))]
    rfl

/-! ## The claims -/

/-- C1: the claim says every registered provider returns a ParseResult
with empty data and a populated error on a malformed URL and never
throws past the provider boundary.  The code violates this: the Adobe
Web SDK provider, registered third, constructs the URL outside any try
block, so on a malformed URL that matches its pattern the exception
escapes the provider and the registry parseUrl call; the inherited
BaseProvider.parseUrl used by the other providers does satisfy the
contract, shown here on the Facebook Pixel provider. -/
theorem c1_adobeWs_parseUrl_throws_on_malformed_url :
    (adobeWsParseUrl "http//site.com/ee/v1/interact" "" []).1 = .error "Invalid URL" ∧
    adobeWsProvider.checkUrl "http//site.com/ee/v1/interact" = true ∧
    (fullRegistry.parseUrl "http//site.com/ee/v1/interact" "" []).1 = .error "Invalid URL" ∧
    (fbProvider.parseUrl "http//www.facebook.com/tr/?x=1" "" []).1 =
      .ok { provider := { name := "Facebook Pixel", key := "FACEBOOKPIXEL",
                          type := "Marketing",
                          columns := [("account", "id"), ("requestType", "requestType")],
                          groups := [("general", "General"), ("customdata", "Custom Data")] },
            data := [], error := some "Invalid URL" } := by
  refine ⟨rfl, by decide, rfl, rfl⟩

/-- C2 counterexample: the claim says a URL matching no registered
pattern parses to the neutral provider identity together with an empty
data sequence, including when the URL carries query parameters.  On a
query-carrying URL that matches no provider the neutral identity does
come back, but the default BaseProvider catalog lookup emits one
fallback field per query parameter, so the data sequence is not
empty. -/
theorem c2_counterexample_query_params_not_empty :
    fullRegistry.checkUrl "https://example.com/?a=1" = false ∧
    (fullRegistry.parseUrl "https://example.com/?a=1" "" []).1 =
      .ok { provider := { name := "", key := "", type := "Unknown", columns := [],
                          groups := [] },
            data := [{ key := "a", field := some "a", value := .str "1",
                       group := some "other", hidden := false }],
            error := none } := by
  exact ⟨rfl, rfl⟩

/-- C2 amended: for every URL that no registered pattern matches even
case-insensitively, checkUrl is false and parseUrl returns the neutral
provider identity whose data holds exactly one catalog-fallback field
per query parameter, so the data sequence is empty exactly when the
URL carries no query parameters.  The proto-entry hypothesis excludes
parameter names colliding with Object.prototype properties. -/
theorem c2_amended_no_match_neutral_identity (url : String) (parts : UrlParts)
    (hci : ∀ p ∈ fullRegistry.providers, p.ciTest url = false)
    (hurl : jsURL url = .ok parts)
    (hproto : ∀ kv ∈ uspParse parts.search, protoEntry kv.1 = none)
    (st : RegexSt) :
    fullRegistry.checkUrl url = false ∧
    fullRegistry.parseUrl url "" st =
      (.ok { provider := { name := "", key := "", type := "Unknown", columns := [],
                           groups := [] },
             data := (uspParse parts.search).map (fun kv =>
               { key := kv.1, field := some kv.1, value := .str kv.2, group := some "other",
                 hidden := false }),
             error := none }, st) := by
  have hfull : fullRegistry.providers = fullProviders := rfl
  have hcheck : fullRegistry.checkUrl url = false := by
    have := checkUrl_mkRegistry fullProviders url
    have hany : fullProviders.any (fun p => p.ciTest url) = false := by
      rw [List.any_eq_false]
      intro p hp
      simp only [Bool.not_eq_true]
      exact hci p (by rw [hfull]; exact hp)
    show (mkRegistry fullProviders).checkUrl url = false
    rw [this, hany]
    rfl
  refine ⟨hcheck, ?_⟩
  have hcs : ∀ p ∈ fullProviders, p.checkUrl url = false := by
    intro p hp
    by_contra hne
    simp only [Bool.not_eq_false] at hne
    have := ciTest_of_checkUrl p (fullProviders_stable p hp) url hne
    rw [hci p (by rw [hfull]; exact hp)] at this
    cases this
  have hsel : fullRegistry.getProviderForUrl url = defaultProvider := by
    rw [Registry.getProviderForUrl, gpfLoop_eq_find]
    have : fullRegistry.providers.find? (fun p => p.checkUrl url) = none := by
      rw [List.find?_eq_none]
      intro p hp
      simp only [Bool.not_eq_true]
      exact hcs p (by rw [← hfull]; exact hp)
    rw [this]
    rfl
  rw [Registry.parseUrl, hsel]
  show (Except.ok (baseParseUrl defaultProvider url "" st).1,
    (baseParseUrl defaultProvider url "" st).2) = _
  unfold baseParseUrl
  rw [hurl]
  simp only
  have hparams : uspParse parts.search ++
      (parsePostData "").map (fun kv => (kv.1, jsToString kv.2)) = uspParse parts.search := by
    show uspParse parts.search ++ [] = _
    rw [List.append_nil]
  rw [hparams, hqpLoop_default (uspParse parts.search) hproto st]
  simp [defaultProvider, providerInfo, typeDisplay]

/-- C2 amended, witness. -/
theorem c2_amended_witness :
    fullRegistry.checkUrl "https://example.com/page?a=1&b=2" = false ∧
    fullRegistry.parseUrl "https://example.com/page?a=1&b=2" "" [] =
      (.ok { provider := { name := "", key := "", type := "Unknown", columns := [],
                           groups := [] },
             data := [{ key := "a", field := some "a", value := .str "1",
                        group := some "other", hidden := false },
                      { key := "b", field := some "b", value := .str "2",
                        group := some "other", hidden := false }],
             error := none }, []) := by
  have h := c2_amended_no_match_neutral_identity "https://example.com/page?a=1&b=2"
    { href := "https://example.com/page?a=1&b=2", hostname := "example.com",
      pathname := "/page", search := "?a=1&b=2" }
    (by decide) rfl (by decide) []
  exact h

/-- C3: the claim says every request body flattened by the engine is
depth-capped at ten with a truncation sentinel, not only XDM payloads.
The general body decoder BaseProvider.parsePostData has no depth
guard: a body nested twelve levels deep flattens to its full dotted
path with no sentinel; only the Adobe Web SDK processXdmObject walk
caps, emitting its sentinel at the same value. -/
theorem c3_parsePostData_has_no_depth_cap :
    parsePostData (jsonStringify (nestJson 12)) =
      [("a.a.a.a.a.a.a.a.a.a.a.a", Json.num 1)] ∧
    jsonFlattenVal (nestJson 12) "" = [("a.a.a.a.a.a.a.a.a.a.a.a", Json.num 1)] ∧
    adobeWsProcessXdm (nestJson 12) "" 0 =
      [{ key := "a.a.a.a.a.a.a.a.a.a.a.maxDepthExceeded",
         field := some "a.a.a.a.a.a.a.a.a.a.a (Max Depth Exceeded)",
         value := .str "Object too deep to display fully", group := some "xdm",
         hidden := false }] := by
  refine ⟨rfl, rfl, ?_⟩
  simp [adobeWsProcessXdm, adobeWsXdmEntries, adobeWsXdmVal, nestJson, xdmGroup, sContains,
    xdmSentinel, String.isEmpty_iff]

/-- C4 counterexample: the claim says the combined-pattern checkUrl is
true exactly when some registered provider matches.  The combined
pattern is compiled with the case-insensitive flag while the
individual provider patterns are case-sensitive, so after registering
the Facebook Pixel provider an upper-case beacon URL passes checkUrl
although no registered provider matches it. -/
theorem c4_counterexample_case_insensitive_combined :
    (mkRegistry [fbProvider]).checkUrl "https://WWW.FACEBOOK.COM/TR/?id=1" = true ∧
    (mkRegistry [fbProvider]).providers.any
      (fun p => p.checkUrl "https://WWW.FACEBOOK.COM/TR/?id=1") = false :=
  ⟨rfl, rfl⟩

/-- C4 amended: for every sequence of addProvider calls over the
repository providers and every URL, checkUrl is true exactly when the
registry is empty, whose seed RegExp matches everything, or some
added pattern matches the URL case-insensitively; an individual
case-sensitive match still implies checkUrl, but not conversely. -/
theorem c4_amended_combined_pattern_characterization (ps : List Provider)
    (hmem : ∀ p ∈ ps, p ∈ fullProviders) (url : String) :
    ((mkRegistry ps).checkUrl url = true ↔ (ps = [] ∨ ∃ p ∈ ps, p.ciTest url = true)) ∧
    ((∃ p ∈ ps, p.checkUrl url = true) → (mkRegistry ps).checkUrl url = true) := by
  have hchar := checkUrl_mkRegistry ps url
  constructor
  · rw [hchar]
    simp [List.isEmpty_iff, List.any_eq_true]
  · rintro ⟨p, hp, hcs⟩
    rw [hchar]
    have hci := ciTest_of_checkUrl p (fullProviders_stable p (hmem p hp)) url hcs
    have : ps.any (fun p => p.ciTest url) = true := List.any_eq_true.mpr ⟨p, hp, hci⟩
    rw [this, Bool.or_true]

/-- C4 amended, witness. -/
theorem c4_amended_witness :
    (mkRegistry [fbProvider, gtmProvider]).checkUrl "https://www.facebook.com/tr/?id=1" = true := by
  have hmem : ∀ p ∈ [fbProvider, gtmProvider], p ∈ fullProviders := by
    intro p hp
    simp only [List.mem_cons, List.not_mem_nil, or_false] at hp
    rcases hp with rfl | rfl
    · simp [fullProviders]
    · simp [fullProviders]
  exact (c4_amended_combined_pattern_characterization [fbProvider, gtmProvider] hmem
    "https://www.facebook.com/tr/?id=1").2 ⟨fbProvider, by simp, by decide⟩

/-- C5: getMatchingProviders returns exactly the providers whose own
pattern matches, in list order, which with distinct keys is
registration order; getProviderForUrl is the first such provider with
a fresh BaseProvider fallback; and the registry parseUrl delegates to
exactly that provider. -/
theorem c5_matching_providers_and_first_match (r : Registry) (ps : List Provider)
    (url postData : String) (st : RegexSt) :
    r.getMatchingProviders url = r.providers.filter (fun p => p.checkUrl url) ∧
    r.getProviderForUrl url =
      (r.providers.find? (fun p => p.checkUrl url)).getD defaultProvider ∧
    r.parseUrl url postData st =
      ((r.providers.find? (fun p => p.checkUrl url)).getD defaultProvider).parseUrl
        url postData st ∧
    ((ps.map (fun p => p.key)).Nodup → (mkRegistry ps).providers = ps) := by
  refine ⟨gmpLoop_eq_filter r.providers url, gpfLoop_eq_find r.providers url, ?_,
    mkRegistry_providers ps⟩
  rw [Registry.parseUrl, Registry.getProviderForUrl, gpfLoop_eq_find]

/-- C5 witness. -/
theorem c5_witness :
    fullRegistry.getMatchingProviders "https://www.facebook.com/tr/?id=1" =
      fullRegistry.providers.filter
        (fun p => p.checkUrl "https://www.facebook.com/tr/?id=1") ∧
    (mkRegistry fullProviders).providers = fullProviders := by
  have h := c5_matching_providers_and_first_match fullRegistry fullProviders
    "https://www.facebook.com/tr/?id=1" "" []
  exact ⟨h.1, h.2.2.2 (by decide)⟩

/-- C6 counterexample: the claim says an unknown key yields the
fallback field labelled with the raw key.  The catalog lookup is a
JavaScript property access, which falls through to Object.prototype:
the key constructor finds the inherited Object constructor function,
whose name property is Object, so the produced field label is Object
rather than the raw key. -/
theorem c6_counterexample_constructor_prototype_key :
    baseHandleQueryParam [] "constructor" "x" =
      some { key := "constructor", field := some "Object", value := .str "x",
             group := some "other", hidden := false } := rfl

/-- C6 amended: the catalog lookup is total and yields at most one
field per parameter: a catalogued hidden key yields none, a
catalogued visible key yields its display name and group, and a key
that is neither an own catalog key nor an Object.prototype property
name yields the raw-key fallback in the group named other. -/
theorem c6_amended_catalog_lookup_cases (cat : List (String × CatalogEntry))
    (name value : String) :
    (∀ e, catalogGet cat name = some e → e.hidden = true →
      baseHandleQueryParam cat name value = none) ∧
    (∀ e dn g, catalogGet cat name = some e → e.hidden = false → e.name = some dn →
      ¬ dn.isEmpty → e.group = some g → ¬ g.isEmpty →
      baseHandleQueryParam cat name value =
        some { key := name, field := some dn, value := .str value, group := some g,
               hidden := false }) ∧
    (cat.find? (fun kv => kv.1 = name) = none → protoEntry name = none →
      baseHandleQueryParam cat name value =
        some { key := name, field := some name, value := .str value, group := some "other",
               hidden := false }) := by
  refine ⟨?_, ?_, ?_⟩
  · intro e he hh
    unfold baseHandleQueryParam
    rw [he]
    simp [hh]
  · intro e dn g he hh hn hdn hg hgne
    unfold baseHandleQueryParam
    rw [he]
    simp only [Option.getD_some, hh, Bool.not_false, if_pos]
    rw [hn, hg]
    simp [jsOrS, hdn, hgne]
  · intro hfind hpro
    unfold baseHandleQueryParam catalogGet
    rw [hfind, hpro]
    simp [jsOrS]

/-- C6 amended, witness. -/
theorem c6_amended_witness :
    baseHandleQueryParam fbKeys "requestType" "x" = none ∧
    baseHandleQueryParam fbKeys "id" "999" =
      some { key := "id", field := some "Pixel ID", value := .str "999",
             group := some "general", hidden := false } ∧
    baseHandleQueryParam fbKeys "zzz" "1" =
      some { key := "zzz", field := some "zzz", value := .str "1", group := some "other",
             hidden := false } := by
  refine ⟨?_, ?_, ?_⟩
  · exact (c6_amended_catalog_lookup_cases fbKeys "requestType" "x").1 ceH rfl rfl
  · exact (c6_amended_catalog_lookup_cases fbKeys "id" "999").2.1
      (ce "Pixel ID" "general") "Pixel ID" "general" rfl rfl rfl (by decide) rfl (by decide)
  · exact (c6_amended_catalog_lookup_cases fbKeys "zzz" "1").2.2 rfl rfl

/-- C7 counterexample: the claim says every empty object or array
emits exactly one empty-string field, including as the whole body.
An empty array does, even at the root, but a top-level empty object
emits nothing, because the source guards the empty-object push on a
nonempty path. -/
theorem c7_counterexample_empty_object_root :
    jsonFlattenVal (Json.obj []) "" = [] ∧
    jsonFlattenVal (Json.arr []) "" = [("", Json.str "")] := ⟨rfl, rfl⟩

/-- C7 amended: the flattening emits each scalar leaf under its path,
recurses into nonempty objects with dotted paths and nonempty arrays
with bracketed index paths, and emits exactly one empty-string field
for an empty array anywhere and for an empty object at a nonempty
path, while a top-level empty object emits nothing. -/
theorem c7_amended_flatten_characterization :
    (∀ prop : String, jsonFlattenVal (.arr []) prop = [(prop, Json.str "")]) ∧
    (∀ prop : String, ¬ prop.isEmpty →
      jsonFlattenVal (.obj []) prop = [(prop, Json.str "")]) ∧
    jsonFlattenVal (.obj []) "" = [] ∧
    (∀ (j : Json) (prop : String), j.isScalar = true → jsonFlattenVal j prop = [(prop, j)]) ∧
    (∀ (kvs : List (String × Json)) (prop : String), kvs ≠ [] →
      jsonFlattenVal (.obj kvs) prop =
        kvs.flatMap (fun kv =>
          jsonFlattenVal kv.2 (if prop.isEmpty then kv.1 else prop ++ "." ++ kv.1))) ∧
    (∀ (xs : List Json) (prop : String), xs ≠ [] →
      jsonFlattenVal (.arr xs) prop =
        xs.enum.flatMap (fun iv =>
          jsonFlattenVal iv.2 (prop ++ "[" ++ toString iv.1 ++ "]"))) := by
  refine ⟨fun prop => rfl, ?_, rfl, ?_, ?_, ?_⟩
  · intro prop h
    show jsonFlattenObj [] prop ++ _ = _
    rw [jsonFlattenObj]
    rw [if_pos ⟨rfl, h⟩]
    rfl
  · intro j prop h
    cases j with
    | arr xs => simp [Json.isScalar] at h
    | obj kvs => simp [Json.isScalar] at h
    | null => rfl
    | bool b => rfl
    | num n => rfl
    | str s => rfl
  · intro kvs prop h
    show jsonFlattenObj kvs prop ++ _ = _
    have hne : kvs.isEmpty = false := by
      cases kvs with
      | nil => exact absurd rfl h
      | cons kv rest => rfl
    rw [if_neg (by simp [hne])]
    rw [List.append_nil, jsonFlattenObj_eq_flatMap]
  · intro xs prop h
    show jsonFlattenArr xs 0 prop ++ _ = _
    have hne : xs.isEmpty = false := by
      cases xs with
      | nil => exact absurd rfl h
      | cons x rest => rfl
    rw [hne]
    show jsonFlattenArr xs 0 prop ++ [] = _
    rw [List.append_nil, jsonFlattenArr_eq_enumFrom]
    rfl

/-- C7 amended, witness. -/
theorem c7_amended_witness :
    jsonFlattenVal (.arr []) "p" = [("p", Json.str "")] ∧
    jsonFlattenVal (.obj []) "p" = [("p", Json.str "")] ∧
    jsonFlattenVal (.num 5) "q" = [("q", Json.num 5)] ∧
    jsonFlattenVal (.obj [("k", .num 1)]) "" = [("k", Json.num 1)] ∧
    jsonFlattenVal (.arr [.num 7]) "p" = [("p[0]", Json.num 7)] := by
  have h := c7_amended_flatten_characterization
  refine ⟨h.1 "p", h.2.1 "p" (by decide), h.2.2.2.1 (.num 5) "q" rfl, ?_, ?_⟩
  · rw [h.2.2.2.2.1 [("k", .num 1)] "" (by simp)]
    rfl
  · rw [h.2.2.2.2.2 [.num 7] "p" (by simp)]
    rfl

/-- C8: the Facebook Pixel example beacon resolves to the
FACEBOOKPIXEL provider and decodes to the Pixel ID, Event Name and
bracketed custom-data fields plus the hidden request type carrying the
event name. -/
theorem c8_facebook_pixel_example :
    (fullRegistry.getProviderForUrl
        "https://www.facebook.com/tr/?id=999&ev=Purchase&cd[value]=49.99").key =
      "FACEBOOKPIXEL" ∧
    (fullRegistry.parseUrl "https://www.facebook.com/tr/?id=999&ev=Purchase&cd[value]=49.99"
        "" []).1 =
      .ok { provider := { name := "Facebook Pixel", key := "FACEBOOKPIXEL",
                          type := "Marketing",
                          columns := [("account", "id"), ("requestType", "requestType")],
                          groups := [("general", "General"),
                                     ("customdata", "Custom Data")] },
            data := [{ key := "id", field := some "Pixel ID", value := .str "999",
                       group := some "general", hidden := false },
                     { key := "ev", field := some "Event Name", value := .str "Purchase",
                       group := some "general", hidden := false },
                     { key := "cd[value]", field := some "Custom Data: value",
                       value := .str "49.99", group := some "customdata", hidden := false },
                     { key := "requestType", field := none, value := .str "Purchase",
                       group := none, hidden := true }],
            error := none } :=
  ⟨rfl, rfl⟩

/-- C9: parsing the same URL and body twice on the repository registry
gives structurally identical results: the output never depends on the
global RegExp capture state a call starts from, because every capture
read in the hooks sits directly after its own successful test. -/
theorem c9_parse_deterministic (url postData : String) (st1 st2 : RegexSt) :
    (fullRegistry.parseUrl url postData st1).1 = (fullRegistry.parseUrl url postData st2).1 ∧
    (fullRegistry.parseUrl url postData (fullRegistry.parseUrl url postData st1).2).1 =
      (fullRegistry.parseUrl url postData st1).1 := by
  exact ⟨registryParse_fst_blind url postData st1 st2,
    registryParse_fst_blind url postData _ st1⟩

/-! ## Key-shape helpers for the Facebook user-data claim -/

theorem ud_key_inj (x k : String) (h : ("ud[" ++ x ++ "]" : String) = "ud[" ++ k ++ "]") :
    x = k := by
  have h2 := congrArg String.data h
  rw [String.data_append, String.data_append, String.data_append, String.data_append,
    List.append_assoc, List.append_assoc] at h2
  exact String.ext (List.append_cancel_right (List.append_cancel_left h2))

theorem requestType_ne_ud_key (k : String) : ("requestType" : String) ≠ "ud[" ++ k ++ "]" := by
  intro h
  have h2 := congrArg String.data h
  rw [String.data_append, String.data_append] at h2
  simp at h2

theorem cd_ne_ud_key (k : String) : ("cd" : String) ≠ "ud[" ++ k ++ "]" := by
  intro h
  have h2 := congrArg String.data h
  rw [String.data_append, String.data_append] at h2
  simp at h2

theorem cd_key_ne_ud_key (x k : String) :
    ("cd[" ++ x ++ "]" : String) ≠ "ud[" ++ k ++ "]" := by
  intro h
  have h2 := congrArg String.data h
  rw [String.data_append, String.data_append, String.data_append, String.data_append] at h2
  rw [List.append_assoc, List.append_assoc] at h2
  simp at h2

theorem ud_ne_ud_key (k : String) : ("ud" : String) ≠ "ud[" ++ k ++ "]" := by
  intro h
  have h2 := congrArg (fun s => s.data.length) h
  simp [String.data_append] at h2

/-- Every field of the cd branch has the bare cd key or a bracketed cd
key. -/
theorem fbCdBranch_keys (c : String) :
    ∀ f ∈ fbCdBranch c, f.key = "cd" ∨ ∃ x, f.key = "cd[" ++ x ++ "]" := by
  intro f hf
  unfold fbCdBranch at hf
  split at hf
  · simp only [List.mem_singleton] at hf
    subst hf
    exact Or.inl rfl
  · split at hf
    · simp only [List.mem_singleton] at hf
      subst hf
      exact Or.inl rfl
    · simp only [List.mem_singleton] at hf
      subst hf
      exact Or.inl rfl
    · rcases List.mem_map.mp hf with ⟨kv, _, hkv⟩
      exact Or.inr ⟨kv.1, by rw [← hkv]⟩

/-- Every field of the ud branch is the masked unparseable field or an
entry field. -/
theorem fbUdBranch_shape (u : String) :
    ∀ f ∈ fbUdBranch u, f = fbUdUnparseable ∨ ∃ kv, f = fbUdEntryField kv := by
  intro f hf
  unfold fbUdBranch at hf
  split at hf
  · simp only [List.mem_singleton] at hf
    exact Or.inl hf
  · split at hf
    · simp only [List.mem_singleton] at hf
      exact Or.inl hf
    · simp only [List.mem_singleton] at hf
      exact Or.inl hf
    · rcases List.mem_map.mp hf with ⟨kv, _, hkv⟩
      exact Or.inr ⟨kv, hkv.symm⟩

/-- Over the Facebook Pixel custom hook taken alone, every emitted
user-data field whose key carries one of the personally identifying
short keys holds the constant mask regardless of the raw value; entry
lists that agree on keys and on the values outside the identifying
keys produce identical field lists; and a ud payload that does not
decode to JSON produces the single masked unparseable field.  The
masking is defeated at beacon scope: the catalog also emits the raw
payload through a visible User Data field. -/
theorem fbCustom_masks_pii :
    (∀ (url : UrlParts) (params : List (String × String)) (st : RegexSt)
        (f : ParsedField) (k : String),
      f ∈ (fbCustom url params st).1 → f.key = "ud[" ++ k ++ "]" → k ∈ fbPiiKeys →
      f.value = .str "********") ∧
    (∀ l1 l2 : List (String × Json),
      List.Forall₂ (fun a b => a.1 = b.1 ∧ (a.1 ∉ fbPiiKeys → a.2 = b.2)) l1 l2 →
      l1.map fbUdEntryField = l2.map fbUdEntryField) ∧
    (∀ u du, jsDecodeS u = some du → jsonParse du = none →
      fbUdBranch u = [{ key := "ud", field := some "User Data (unparseable)",
                        value := .str "[MASKED]", group := some "general",
                        hidden := false }]) ∧
    (∀ u, jsDecodeS u = none →
      fbUdBranch u = [{ key := "ud", field := some "User Data (unparseable)",
                        value := .str "[MASKED]", group := some "general",
                        hidden := false }]) := by
  refine ⟨?_, ?_, ?_, ?_⟩
  · intro url params st f k hf hkey hk
    unfold fbCustom at hf
    simp only at hf
    rcases List.mem_append.mp hf with hf1 | hfud
    · rcases List.mem_append.mp hf1 with hfrt | hfcd
      · simp only [List.mem_singleton] at hfrt
        subst hfrt
        exact absurd hkey (requestType_ne_ud_key k)
      · have hcd : f ∈ fbCdBranch ((uspGet params "cd").getD "") := by
          by_cases hc : uspHas params "cd" = true
          · rw [if_pos hc] at hfcd
            exact hfcd
          · rw [if_neg hc] at hfcd
            cases hfcd
        rcases fbCdBranch_keys _ f hcd with hk1 | ⟨x, hk2⟩
        · exact absurd hkey (hk1 ▸ cd_ne_ud_key k)
        · exact absurd hkey (hk2 ▸ cd_key_ne_ud_key x k)
    · have hud : f ∈ fbUdBranch ((uspGet params "ud").getD "") := by
        by_cases hc : uspHas params "ud" = true
        · rw [if_pos hc] at hfud
          exact hfud
        · rw [if_neg hc] at hfud
          cases hfud
      rcases fbUdBranch_shape _ f hud with h1 | ⟨kv, h2⟩
      · subst h1
        exact absurd hkey (ud_ne_ud_key k)
      · subst h2
        have hkey2 : kv.1 = k := ud_key_inj kv.1 k hkey
        show (if fbPiiKeys.contains kv.1 then Json.str "********" else kv.2) = _
        rw [if_pos (by rw [hkey2]; exact List.elem_eq_true_of_mem hk)]
  · intro l1 l2 hrel
    induction hrel with
    | nil => rfl
    | cons hab htail ih =>
      rename_i a b l1t l2t
      rw [List.map_cons, List.map_cons, ih]
      congr 1
      rcases hab with ⟨hk, hv⟩
      unfold fbUdEntryField
      rw [hk]
      by_cases hc : fbPiiKeys.contains b.1 = true
      · rw [if_pos hc, if_pos hc]
      · rw [if_neg hc, if_neg hc, hv]
        intro hm
        rw [hk] at hm
        exact hc (List.elem_eq_true_of_mem hm)
  · intro u du hdec hp
    unfold fbUdBranch
    simp only [hdec, hp]
    rfl
  · intro u hdec
    unfold fbUdBranch
    simp only [hdec]
    rfl

/-- C10: the Facebook Pixel catalog marks the ud parameter as a
visible key named User Data, so parseUrl emits a field carrying the
raw decoded ud payload through the base catalog path, next to the
masked per-key user-data fields that the custom hook pushes: two
beacons differing only in a personally identifying value parse to
different outputs, and on a payload that does not decode to JSON the
masked unparseable field is accompanied by a raw User Data field. -/
theorem c10_raw_user_data_field_leak :
    (fullRegistry.parseUrl
        "https://www.facebook.com/tr/?id=1&ud=%7B%22em%22%3A%22secret%22%7D" "" []).1 =
      .ok { provider := { name := "Facebook Pixel", key := "FACEBOOKPIXEL",
                          type := "Marketing",
                          columns := [("account", "id"), ("requestType", "requestType")],
                          groups := [("general", "General"), ("customdata", "Custom Data")] },
            data := [{ key := "id", field := some "Pixel ID", value := .str "1",
                       group := some "general", hidden := false },
                     { key := "ud", field := some "User Data",
                       value := .str "\x7b\"em\":\"secret\"\x7d",
                       group := some "general", hidden := false },
                     { key := "requestType", field := none, value := .str "PageView",
                       group := none, hidden := true },
                     { key := "ud[em]", field := some "User Data: em",
                       value := .str "********", group := some "general",
                       hidden := false }],
            error := none } ∧
    (fullRegistry.parseUrl "https://www.facebook.com/tr/?id=1&ud=%7B%7Bbad" "" []).1 =
      .ok { provider := { name := "Facebook Pixel", key := "FACEBOOKPIXEL",
                          type := "Marketing",
                          columns := [("account", "id"), ("requestType", "requestType")],
                          groups := [("general", "General"), ("customdata", "Custom Data")] },
            data := [{ key := "id", field := some "Pixel ID", value := .str "1",
                       group := some "general", hidden := false },
                     { key := "ud", field := some "User Data",
                       value := .str "\x7b\x7bbad",
                       group := some "general", hidden := false },
                     { key := "requestType", field := none, value := .str "PageView",
                       group := none, hidden := true },
                     { key := "ud", field := some "User Data (unparseable)",
                       value := .str "[MASKED]", group := some "general",
                       hidden := false }],
            error := none } ∧
    ((fullRegistry.parseUrl
        "https://www.facebook.com/tr/?id=1&ud=%7B%22em%22%3A%22secret%22%7D" "" []).1.toOption.map
        (fun r => r.data.map (fun f => jsonStringify f.value))) ≠
    ((fullRegistry.parseUrl
        "https://www.facebook.com/tr/?id=1&ud=%7B%22em%22%3A%22hunter2%22%7D" "" []).1.toOption.map
        (fun r => r.data.map (fun f => jsonStringify f.value))) := by
  refine ⟨rfl, rfl, by decide⟩
